import Mathlib

/-!
http-sample-1: timeout-raced fetch and JSON pretty-printer.

A shallow embedding of `src/http-sample-1/main.go`.

* `fetchData` races a background HTTP call against a context deadline in a
  polling loop (`select` with a `default` branch that prints an animation frame
  and sleeps 130 ms).
* `formatJSON` re-indents a JSON document with `json.Indent(&out, data, "", " ")`;
  `json.Indent` and the scanner it drives belong to the Go standard library
  (encoding/json, files indent.go and scanner.go) and are embedded function by
  function.

Time is counted in nanoseconds, as `time.Duration` does. The polls of the loop
happen at multiples of the 130 ms sleep; the checks themselves take no time.
-/

namespace HttpSample

/-! ## Data model -/

/-- A Go byte slice, as the list of its byte values. -/
abbrev Bytes := List Nat

/-- The struct `Response` (main.go 18-21): `data []byte` and `err error`.
`none` stands for Go's `nil`; an error is represented by its message. -/
structure Response where
  data : Option Bytes
  err : Option String
deriving DecidableEq, Repr

/-- The constant `time.Millisecond`, in nanoseconds. -/
def Millisecond : Nat := 1000000

/-- The constant `TIMEOUT time.Duration = 5000` (main.go 15). -/
def TIMEOUT : Nat := 5000

/-- The timeout handed to `context.WithTimeout` in `main` (main.go 27):
`time.Millisecond*TIMEOUT`. -/
def mainTimeout : Nat := Millisecond * TIMEOUT

/-- The argument of `time.Sleep` in the polling loop (main.go 96):
`time.Millisecond * 130`. -/
def sleepInterval : Nat := Millisecond * 130

/-- A prepared `*http.Request`: method and URL. -/
structure Request where
  method : String
  url : String
deriving DecidableEq, Repr

/-- What `client.Do` hands back on success, reduced to what `makeHttpRequest`
uses: the pair returned by `io.ReadAll(response.Body)`. -/
structure HttpResponse where
  readAll : Bytes × Option String
deriving DecidableEq, Repr

/-! ## makeHttpRequest (main.go 102-117) -/

/-- The function `makeHttpRequest`; `Do` is `client.Do`. -/
def makeHttpRequest (request : Request) (Do : Request → Except String HttpResponse) :
    Option Bytes × Option String :=
  match Do request with
  | .error responseErr => (none, some responseErr)
  | .ok response =>
    match response.readAll with
    | (_, some bodyReadErr) => (none, some bodyReadErr)
    | (body, none) => (some body, none)

/-! ## The polling loop of fetchData (main.go 76-99) -/

/-- The three branches of the `select` statement. -/
inductive Branch where
  | ctxDone
  | recv
  | dflt
deriving DecidableEq, Repr

/-- Go's `select` with a `default` branch: when no communication is ready the
default branch runs; when exactly one is ready it runs; when both are ready the
runtime picks one of them (`pickDone` is that pick). -/
def selectBranch (doneReady respReady pickDone : Bool) : Branch :=
  match doneReady, respReady with
  | true, true => if pickDone then Branch.ctxDone else Branch.recv
  | true, false => Branch.ctxDone
  | false, true => Branch.recv
  | false, false => Branch.dflt

/-- The variables of the loop: `i`, `loading`, and two observers, the list of
strings handed to `fmt.Printf` so far and the number of completed iterations. -/
structure LoopVars where
  i : Int
  loading : String
  printed : List String
  iter : Nat
deriving DecidableEq, Repr

/-- The state on entry to the loop: `i := 0`, `var loading string`. -/
def loopInit : LoopVars := { i := 0, loading := "", printed := [], iter := 0 }

/-- The `default` branch of the `select` (main.go 86-97). -/
def defaultBranch (s : LoopVars) : LoopVars :=
  let s1 : LoopVars :=
    if s.i = 0 then { s with loading := ".  " }
    else if s.i = 1 then { s with loading := ".. " }
    else if s.i = 2 then { s with loading := "...", i := -1 }
    else s
  { i := s1.i + 1
    loading := s1.loading
    printed := s1.printed ++ ["\rwaiting for response" ++ s1.loading]
    iter := s1.iter + 1 }

/-- The time of the poll that starts in state `s`: every completed iteration
slept `sleepInterval`, the checks themselves take no time. -/
def pollTime (s : LoopVars) : Nat := s.iter * sleepInterval

/-- What `fetchData` hands back, with observers: the loop variables at the
return, the time of the return, and whether the value sent on `responseChan`
was received. -/
structure FetchResult where
  data : Option Bytes
  err : Option String
  vars : LoopVars
  returnedAt : Nat
  received : Bool
deriving DecidableEq, Repr

/-- The `for { select { ... } }` loop. `deadline` is the time at which
`ctx.Done()` becomes ready, `completion` the time at which the background task
reaches its send of `response` on `responseChan`, `pick` the choice of the
runtime at each poll where both are ready. `none` when the fuel runs out. -/
def pollLoop (deadline completion : Nat) (response : Response) (pick : Nat → Bool) :
    Nat → LoopVars → Option FetchResult
  | 0, _ => none
  | fuel + 1, s =>
    match selectBranch (decide (deadline ≤ pollTime s)) (decide (completion ≤ pollTime s))
        (pick s.iter) with
    | Branch.ctxDone =>
      some { data := none, err := some "request timed out", vars := s,
             returnedAt := pollTime s, received := false }
    | Branch.recv =>
      some { data := response.data, err := response.err, vars := s,
             returnedAt := pollTime s, received := true }
    | Branch.dflt => pollLoop deadline completion response pick fuel (defaultBranch s)

/-- The environment of one call of `fetchData`: the library calls it makes and
the timing of the race. -/
structure Env where
  NewRequest : String → String → Except String Request
  Do : Request → Except String HttpResponse
  deadline : Nat
  completion : Nat
  pick : Nat → Bool

/-- The function `fetchData` (main.go 52-100). -/
def fetchData (env : Env) (fuel : Nat) (name : String) : Option FetchResult :=
  let url := "https://api.genderize.io?name=" ++ name
  match env.NewRequest "GET" url with
  | .error requestErr =>
    some { data := none, err := some requestErr, vars := loopInit,
           returnedAt := 0, received := false }
  | .ok request =>
    let sent := makeHttpRequest request env.Do
    pollLoop env.deadline env.completion { data := sent.1, err := sent.2 } env.pick
      fuel loopInit

/-! ## The scanner of encoding/json (Go standard library, scanner.go)

`formatJSON` calls `json.Indent`, which drives the JSON scanner of the Go
standard library one byte at a time. The scanner is a state machine: the field
`step` names the state function that handles the next byte. -/

/-- The result codes of a scanner step (scanner.go, the `scan...` constants). -/
inductive ScanCode where
  | scanContinue
  | scanBeginLiteral
  | scanBeginObject
  | scanObjectKey
  | scanObjectValue
  | scanEndObject
  | scanBeginArray
  | scanArrayValue
  | scanEndArray
  | scanSkipSpace
  | scanEnd
  | scanError
deriving DecidableEq, Repr

open ScanCode

/-- The entries of the scanner's `parseState` stack. -/
inductive ParseState where
  | parseObjectKey
  | parseObjectValue
  | parseArrayValue
deriving DecidableEq, Repr

open ParseState

/-- The state functions a scanner's `step` field can hold. -/
inductive StepFn where
  | beginValueOrEmpty
  | beginValue
  | beginStringOrEmpty
  | beginString
  | endValue
  | endTop
  | inString
  | inStringEsc
  | inStringEscU
  | inStringEscU1
  | inStringEscU12
  | inStringEscU123
  | neg
  | one
  | zero
  | dot
  | dot0
  | e
  | eSign
  | e0
  | t
  | tr
  | tru
  | f
  | fa
  | fal
  | fals
  | n
  | nu
  | nul
  | error
deriving DecidableEq, Repr

/-- A `*SyntaxError`. Go renders the message as
`"invalid character " + quoteChar(c) + " " + context`; here the offending byte
and the context are kept apart (`c = none` for "unexpected end of JSON input"). -/
structure SyntaxError where
  c : Option Nat
  context : String
  Offset : Nat
deriving DecidableEq, Repr

/-- The struct `scanner`. `parseState` is a stack, its top at the head of the
list. -/
structure scanner where
  step : StepFn
  endTop : Bool
  parseState : List ParseState
  err : Option SyntaxError
  bytes : Nat
deriving DecidableEq, Repr

/-- The constant `maxNestingDepth`. -/
def maxNestingDepth : Nat := 10000

/-- The scanner after `newScanner()` / `reset()`. -/
def newScanner : scanner :=
  { step := StepFn.beginValue, endTop := false, parseState := [], err := none, bytes := 0 }

/-- The method `(*scanner).error`: records the error and kills the scanner. -/
def scanner.error (s : scanner) (c : Nat) (context : String) : scanner × ScanCode :=
  ({ s with step := StepFn.error,
            err := some { c := some c, context := context, Offset := s.bytes } }, scanError)

/-- The method `pushParseState`. -/
def scanner.pushParseState (s : scanner) (c : Nat) (newParseState : ParseState)
    (successState : ScanCode) : scanner × ScanCode :=
  let s1 := { s with parseState := newParseState :: s.parseState }
  if s1.parseState.length ≤ maxNestingDepth then (s1, successState)
  else s1.error c "exceeded max depth"

/-- The method `popParseState`. -/
def scanner.popParseState (s : scanner) : scanner :=
  let ps := s.parseState.tail
  if ps.length = 0 then { s with parseState := ps, step := StepFn.endTop, endTop := true }
  else { s with parseState := ps, step := StepFn.endValue }

/-- The assignment `s.parseState[n-1] = v` to the top of the stack. The scanner
only does it in states entered after a push, where the stack is not empty. -/
def setTop (ps : List ParseState) (v : ParseState) : List ParseState :=
  match ps with
  | [] => []
  | _ :: rest => v :: rest

/-- The function `isSpace`: space, tab, carriage return, newline. -/
def isSpace (c : Nat) : Bool :=
  decide (c ≤ 32) && (c == 32 || c == 9 || c == 13 || c == 10)

/-- Whether `'0' <= c && c <= '9'`. -/
def isDigit (c : Nat) : Bool := decide (48 ≤ c) && decide (c ≤ 57)

/-- Whether `c` is a hexadecimal digit, as tested in the `\u` escape states. -/
def isHex (c : Nat) : Bool :=
  (decide (48 ≤ c) && decide (c ≤ 57)) || (decide (97 ≤ c) && decide (c ≤ 102))
    || (decide (65 ≤ c) && decide (c ≤ 70))

/-- The state `stateEndTop`: after the top-level value only space may follow. -/
def stateEndTop (s : scanner) (c : Nat) : scanner × ScanCode :=
  if !isSpace c then ((s.error c "after top-level value").1, scanEnd)
  else (s, scanEnd)

/-- The state `stateEndValue`: after a value, such as after a closing quote. -/
def stateEndValue (s : scanner) (c : Nat) : scanner × ScanCode :=
  match s.parseState with
  | [] => stateEndTop { s with step := StepFn.endTop, endTop := true } c
  | ps :: rest =>
    if isSpace c then ({ s with step := StepFn.endValue }, scanSkipSpace)
    else
      match ps with
      | parseObjectKey =>
        if c = 58 then -- ':'
          ({ s with parseState := parseObjectValue :: rest, step := StepFn.beginValue },
            scanObjectKey)
        else s.error c "after object key"
      | parseObjectValue =>
        if c = 44 then -- ','
          ({ s with parseState := parseObjectKey :: rest, step := StepFn.beginString },
            scanObjectValue)
        else if c = 125 then -- '}'
          (s.popParseState, scanEndObject)
        else s.error c "after object key:value pair"
      | parseArrayValue =>
        if c = 44 then -- ','
          ({ s with step := StepFn.beginValue }, scanArrayValue)
        else if c = 93 then -- ']'
          (s.popParseState, scanEndArray)
        else s.error c "after array element"

/-- The state `stateBeginValue`: at the beginning of the input or of a value. -/
def stateBeginValue (s : scanner) (c : Nat) : scanner × ScanCode :=
  if isSpace c then (s, scanSkipSpace)
  else if c = 123 then -- '{'
    { s with step := StepFn.beginStringOrEmpty }.pushParseState c parseObjectKey scanBeginObject
  else if c = 91 then -- '['
    { s with step := StepFn.beginValueOrEmpty }.pushParseState c parseArrayValue scanBeginArray
  else if c = 34 then -- '"'
    ({ s with step := StepFn.inString }, scanBeginLiteral)
  else if c = 45 then -- '-'
    ({ s with step := StepFn.neg }, scanBeginLiteral)
  else if c = 48 then -- '0'
    ({ s with step := StepFn.zero }, scanBeginLiteral)
  else if c = 116 then -- 't'
    ({ s with step := StepFn.t }, scanBeginLiteral)
  else if c = 102 then -- 'f'
    ({ s with step := StepFn.f }, scanBeginLiteral)
  else if c = 110 then -- 'n'
    ({ s with step := StepFn.n }, scanBeginLiteral)
  else if 49 ≤ c ∧ c ≤ 57 then -- '1' .. '9'
    ({ s with step := StepFn.one }, scanBeginLiteral)
  else s.error c "looking for beginning of value"

/-- The state `stateBeginValueOrEmpty`: after reading `[`. -/
def stateBeginValueOrEmpty (s : scanner) (c : Nat) : scanner × ScanCode :=
  if isSpace c then (s, scanSkipSpace)
  else if c = 93 then stateEndValue s c -- ']'
  else stateBeginValue s c

/-- The state `stateBeginString`: after reading `{"key": value,`. -/
def stateBeginString (s : scanner) (c : Nat) : scanner × ScanCode :=
  if isSpace c then (s, scanSkipSpace)
  else if c = 34 then ({ s with step := StepFn.inString }, scanBeginLiteral)
  else s.error c "looking for beginning of object key string"

/-- The state `stateBeginStringOrEmpty`: after reading `{`. -/
def stateBeginStringOrEmpty (s : scanner) (c : Nat) : scanner × ScanCode :=
  if isSpace c then (s, scanSkipSpace)
  else if c = 125 then -- '}'
    stateEndValue { s with parseState := setTop s.parseState parseObjectValue } c
  else stateBeginString s c

/-- The state `stateInString`: after reading a quote. -/
def stateInString (s : scanner) (c : Nat) : scanner × ScanCode :=
  if c = 34 then ({ s with step := StepFn.endValue }, scanContinue)
  else if c = 92 then ({ s with step := StepFn.inStringEsc }, scanContinue)
  else if c < 32 then s.error c "in string literal"
  else (s, scanContinue)

/-- The state `stateInStringEsc`: after a backslash in a string. -/
def stateInStringEsc (s : scanner) (c : Nat) : scanner × ScanCode :=
  if c = 98 ∨ c = 102 ∨ c = 110 ∨ c = 114 ∨ c = 116 ∨ c = 92 ∨ c = 47 ∨ c = 34 then
    ({ s with step := StepFn.inString }, scanContinue)
  else if c = 117 then ({ s with step := StepFn.inStringEscU }, scanContinue)
  else s.error c "in string escape code"

/-- The four states `stateInStringEscU`, `...U1`, `...U12`, `...U123`, which
differ in the state they move to. -/
def stateInStringEscHex (next : StepFn) (s : scanner) (c : Nat) : scanner × ScanCode :=
  if isHex c then ({ s with step := next }, scanContinue)
  else s.error c "in \\u hexadecimal character escape"

/-- The state `stateNeg`: after a minus sign. -/
def stateNeg (s : scanner) (c : Nat) : scanner × ScanCode :=
  if c = 48 then ({ s with step := StepFn.zero }, scanContinue)
  else if 49 ≤ c ∧ c ≤ 57 then ({ s with step := StepFn.one }, scanContinue)
  else s.error c "in numeric literal"

/-- The state `state0`: after a leading `0`. -/
def state0 (s : scanner) (c : Nat) : scanner × ScanCode :=
  if c = 46 then ({ s with step := StepFn.dot }, scanContinue)
  else if c = 101 ∨ c = 69 then ({ s with step := StepFn.e }, scanContinue)
  else stateEndValue s c

/-- The state `state1`: after a non-zero leading digit. -/
def state1 (s : scanner) (c : Nat) : scanner × ScanCode :=
  if isDigit c then ({ s with step := StepFn.one }, scanContinue)
  else state0 s c

/-- The state `stateDot`: after the decimal point. -/
def stateDot (s : scanner) (c : Nat) : scanner × ScanCode :=
  if isDigit c then ({ s with step := StepFn.dot0 }, scanContinue)
  else s.error c "after decimal point in numeric literal"

/-- The state `stateDot0`: after a digit behind the decimal point. -/
def stateDot0 (s : scanner) (c : Nat) : scanner × ScanCode :=
  if isDigit c then (s, scanContinue)
  else if c = 101 ∨ c = 69 then ({ s with step := StepFn.e }, scanContinue)
  else stateEndValue s c

/-- The state `stateESign`: after the sign of an exponent. -/
def stateESign (s : scanner) (c : Nat) : scanner × ScanCode :=
  if isDigit c then ({ s with step := StepFn.e0 }, scanContinue)
  else s.error c "in exponent of numeric literal"

/-- The state `stateE`: after the `e` of an exponent. -/
def stateE (s : scanner) (c : Nat) : scanner × ScanCode :=
  if c = 43 ∨ c = 45 then ({ s with step := StepFn.eSign }, scanContinue)
  else stateESign s c

/-- The state `stateE0`: after a digit of the exponent. -/
def stateE0 (s : scanner) (c : Nat) : scanner × ScanCode :=
  if isDigit c then (s, scanContinue)
  else stateEndValue s c

/-- The states inside the literals `true`, `false` and `null` (`stateT`,
`stateTr`, ... `stateNul`): each expects one letter and moves on. -/
def stateLetter (expect : Nat) (next : StepFn) (context : String) (s : scanner) (c : Nat) :
    scanner × ScanCode :=
  if c = expect then ({ s with step := next }, scanContinue)
  else s.error c context

/-- The state `stateError`: after an error every byte is an error. -/
def stateError (s : scanner) (_c : Nat) : scanner × ScanCode := (s, scanError)

/-- The call `s.step(s, c)`: run the state function the scanner holds. -/
def scanner.doStep (s : scanner) (c : Nat) : scanner × ScanCode :=
  match s.step with
  | StepFn.beginValueOrEmpty => stateBeginValueOrEmpty s c
  | StepFn.beginValue => stateBeginValue s c
  | StepFn.beginStringOrEmpty => stateBeginStringOrEmpty s c
  | StepFn.beginString => stateBeginString s c
  | StepFn.endValue => stateEndValue s c
  | StepFn.endTop => stateEndTop s c
  | StepFn.inString => stateInString s c
  | StepFn.inStringEsc => stateInStringEsc s c
  | StepFn.inStringEscU => stateInStringEscHex StepFn.inStringEscU1 s c
  | StepFn.inStringEscU1 => stateInStringEscHex StepFn.inStringEscU12 s c
  | StepFn.inStringEscU12 => stateInStringEscHex StepFn.inStringEscU123 s c
  | StepFn.inStringEscU123 => stateInStringEscHex StepFn.inString s c
  | StepFn.neg => stateNeg s c
  | StepFn.one => state1 s c
  | StepFn.zero => state0 s c
  | StepFn.dot => stateDot s c
  | StepFn.dot0 => stateDot0 s c
  | StepFn.e => stateE s c
  | StepFn.eSign => stateESign s c
  | StepFn.e0 => stateE0 s c
  | StepFn.t => stateLetter 114 StepFn.tr "in literal true (expecting \x27r\x27)" s c
  | StepFn.tr => stateLetter 117 StepFn.tru "in literal true (expecting \x27u\x27)" s c
  | StepFn.tru => stateLetter 101 StepFn.endValue "in literal true (expecting \x27e\x27)" s c
  | StepFn.f => stateLetter 97 StepFn.fa "in literal false (expecting \x27a\x27)" s c
  | StepFn.fa => stateLetter 108 StepFn.fal "in literal false (expecting \x27l\x27)" s c
  | StepFn.fal => stateLetter 115 StepFn.fals "in literal false (expecting \x27s\x27)" s c
  | StepFn.fals => stateLetter 101 StepFn.endValue "in literal false (expecting \x27e\x27)" s c
  | StepFn.n => stateLetter 117 StepFn.nu "in literal null (expecting \x27u\x27)" s c
  | StepFn.nu => stateLetter 108 StepFn.nul "in literal null (expecting \x27l\x27)" s c
  | StepFn.nul => stateLetter 108 StepFn.endValue "in literal null (expecting \x27l\x27)" s c
  | StepFn.error => stateError s c

/-- The method `(*scanner).eof`: the scanner is told the input has ended. The
returned scanner carries the error, if there is one. -/
def scanner.eof (s : scanner) : scanner × ScanCode :=
  if s.err.isSome then (s, scanError)
  else if s.endTop then (s, scanEnd)
  else
    let s1 := (s.doStep 32).1
    if s1.endTop then (s1, scanEnd)
    else if s1.err.isNone then
      ({ s1 with err := some { c := none, context := "unexpected end of JSON input",
                               Offset := s1.bytes } }, scanError)
    else (s1, scanError)

/-- The loop of `checkValid` (scanner.go): it stops with `false` at the first
byte the scanner rejects and ends with `true` when every byte has been accepted. -/
def checkValidLoop : scanner → Bytes → scanner × Bool
  | scan, [] => (scan, true)
  | scan, c :: rest =>
    let r := { scan with bytes := scan.bytes + 1 }.doStep c
    if r.2 = scanError then (r.1, false) else checkValidLoop r.1 rest

/-- The function `checkValid`: the error of the scan, `none` for valid JSON. -/
def checkValid (data : Bytes) : Option SyntaxError :=
  let r := checkValidLoop newScanner data
  if r.2 = false then r.1.err
  else
    let e := r.1.eof
    if e.2 = scanError then e.1.err else none

/-- The function `json.Valid`: whether `data` is a valid JSON encoding. -/
def Valid (data : Bytes) : Bool := (checkValid data).isNone

/-! ## json.Indent (Go standard library, indent.go) -/

/-- The function `appendNewline`: a newline, the prefix, and `depth` copies of
the indent (none when `depth` is not positive). -/
def appendNewline (dst pre indent : Bytes) (depth : Int) : Bytes :=
  dst ++ [10] ++ pre ++ (List.replicate depth.toNat indent).flatten

/-- The variables of the loop of `appendIndent`. -/
structure IndentState where
  dst : Bytes
  scan : scanner
  needIndent : Bool
  depth : Int
deriving DecidableEq, Repr

/-- The loop `for _, c := range src` of `appendIndent`. -/
def indentLoop (pre indent : Bytes) : IndentState → Bytes → IndentState
  | st, [] => st
  | st, c :: rest =>
    let r := { st.scan with bytes := st.scan.bytes + 1 }.doStep c
    let v := r.2
    let st := { st with scan := r.1 }
    if v = scanSkipSpace then indentLoop pre indent st rest
    else if v = scanError then st
    else
      let st :=
        if st.needIndent ∧ v ≠ scanEndObject ∧ v ≠ scanEndArray then
          { st with needIndent := false, depth := st.depth + 1,
                    dst := appendNewline st.dst pre indent (st.depth + 1) }
        else st
      if v = scanContinue then
        indentLoop pre indent { st with dst := st.dst ++ [c] } rest
      else if c = 123 ∨ c = 91 then -- '{', '['
        indentLoop pre indent { st with needIndent := true, dst := st.dst ++ [c] } rest
      else if c = 44 then -- ','
        indentLoop pre indent { st with dst := appendNewline (st.dst ++ [c]) pre indent st.depth }
          rest
      else if c = 58 then -- ':'
        indentLoop pre indent { st with dst := st.dst ++ [c, 32] } rest
      else if c = 125 ∨ c = 93 then -- '}', ']'
        let st :=
          if st.needIndent then { st with needIndent := false }
          else { st with depth := st.depth - 1,
                         dst := appendNewline st.dst pre indent (st.depth - 1) }
        indentLoop pre indent { st with dst := st.dst ++ [c] } rest
      else
        indentLoop pre indent { st with dst := st.dst ++ [c] } rest

/-- The function `appendIndent`: on a scan error the bytes appended so far are
dropped (`dst[:origLen]`). -/
def appendIndent (dst src pre indent : Bytes) : Bytes × Option SyntaxError :=
  let origLen := dst.length
  let st := indentLoop pre indent
    { dst := dst, scan := newScanner, needIndent := false, depth := 0 } src
  let e := st.scan.eof
  if e.2 = scanError then (st.dst.take origLen, e.1.err)
  else (st.dst, none)

/-- The function `json.Indent`, on the contents of the buffer `dst`: the new
contents of the buffer and the error. -/
def Indent (dst src pre indent : Bytes) : Bytes × Option SyntaxError :=
  let r := appendIndent [] src pre indent
  (dst ++ r.1, r.2)

/-! ## formatJSON (main.go 40-50) -/

/-- What `formatJSON` does: the string it returns (as its bytes) and the error it
hands to `fmt.Println`, if any. -/
structure FormatResult where
  result : Bytes
  printed : Option SyntaxError
deriving DecidableEq, Repr

/-- The function `formatJSON`: `json.Indent(&out, data, "", " ")` into an empty
buffer; the error is printed and the buffer is returned as a string. -/
def formatJSON (data : Bytes) : FormatResult :=
  let r := Indent [] data [] [32]
  { result := r.1, printed := r.2 }

/-- The bytes of a string of ASCII characters. -/
def bytesOf (s : String) : Bytes := s.toList.map Char.toNat

/-- The lines of a text: the pieces between its newline bytes. -/
def splitLines : Bytes → List Bytes
  | [] => [[]]
  | c :: rest =>
    if c = 10 then [] :: splitLines rest
    else
      match splitLines rest with
      | [] => [[c]]
      | l :: ls => (c :: l) :: ls

/-! ## Fixtures -/

/-- The body of the sample answer of the endpoint for the name "sam". -/
def samBody : Bytes :=
  bytesOf "\x7b\"name\":\"sam\",\"gender\":\"male\",\"probability\":0.97\x7d"

/-- An environment in which request construction succeeds and the HTTP call
answers with `samBody`; deadline, completion time and the picks of `select` are
left open. -/
def sampleEnv (deadline completion : Nat) (pick : Nat → Bool) : Env :=
  { NewRequest := fun method url => Except.ok { method := method, url := url }
    Do := fun _ => Except.ok { readAll := (samBody, none) }
    deadline := deadline
    completion := completion
    pick := pick }

/-! ## Relations used to compare two runs of the indenter -/

/-- The states in which a number may end: `state1`, `state0`, `stateDot0`,
`stateE0`. On a byte that does not continue the number they hand over to
`stateEndValue`. -/
def StepFn.endsNumber : StepFn → Bool
  | StepFn.one => true
  | StepFn.zero => true
  | StepFn.dot0 => true
  | StepFn.e0 => true
  | _ => false

/-- The four states that begin a value or a key: they skip space and stay. -/
def StepFn.begins : StepFn → Bool
  | StepFn.beginValueOrEmpty => true
  | StepFn.beginValue => true
  | StepFn.beginStringOrEmpty => true
  | StepFn.beginString => true
  | _ => false

/-- The two states right after an opening bracket. -/
def StepFn.afterOpen : StepFn → Bool
  | StepFn.beginValueOrEmpty => true
  | StepFn.beginStringOrEmpty => true
  | _ => false

/-- The scanner `s2` has read the same tokens as `s1`, where `s1` may in
addition have skipped space behind a number. -/
def ScanRel (s1 s2 : scanner) : Prop :=
  s1.parseState = s2.parseState ∧ s1.endTop = s2.endTop ∧ s1.err = none ∧ s2.err = none
    ∧ s1.step ≠ StepFn.error
    ∧ (s1.step = s2.step ∨ (s1.step = StepFn.endValue ∧ s2.step.endsNumber = true))

/-- As `ScanRel`, where `s2` too may have skipped space behind a value. -/
def ScanRelW (s1 s2 : scanner) : Prop :=
  s1.parseState = s2.parseState ∧ s1.endTop = s2.endTop ∧ s1.err = none ∧ s2.err = none
    ∧ s1.step ≠ StepFn.error
    ∧ (s1.step = s2.step ∨ (s1.step = StepFn.endValue ∧ s2.step.endsNumber = true)
      ∨ ((s1.step = StepFn.endValue ∨ s1.step.endsNumber = true) ∧ s2.step = StepFn.endValue))

/-- What the next step of a scanner depends on: state, flag, stack, and whether
an error has been recorded. -/
def scanner.core (s : scanner) : StepFn × Bool × List ParseState × Bool :=
  (s.step, s.endTop, s.parseState, s.err.isSome)

/-- The two codes a step inside a literal can return. -/
def ScanCode.inLiteral : ScanCode → Bool
  | scanContinue => true
  | scanError => true
  | _ => false

/-- A step result is coherent: the code `scanError` and the state `stateError`
come with a recorded error. -/
def coherent (r : scanner × ScanCode) : Bool :=
  (r.2 != scanError || r.1.err.isSome) && (r.1.step != StepFn.error || r.1.err.isSome)

/-- The byte `c` is none of the six punctuation bytes the indenter treats
specially. -/
def plainByte (c : Nat) : Prop :=
  c ≠ 123 ∧ c ≠ 91 ∧ c ≠ 44 ∧ c ≠ 58 ∧ c ≠ 125 ∧ c ≠ 93

/-- The scanner skips a space byte in its present state. -/
def skips (s : scanner) : Prop :=
  s.step.begins = true
    ∨ ((s.step = StepFn.endValue ∨ s.step.endsNumber = true) ∧ s.parseState ≠ [])

/-- The ways a step from the scanner `s` on the byte `c` can end in `r` when it
neither skips the byte nor fails: inside a literal; at the start of a literal;
at an opening brace or bracket; at a colon; at a comma; at a closing brace or
bracket; at space behind the top-level value. -/
def Classified (s : scanner) (c : Nat) (r : scanner × ScanCode) : Prop :=
  (r.2 = scanContinue ∧ s.step.afterOpen = false)
    ∨ (r.2 = scanBeginLiteral ∧ plainByte c ∧ s.step.begins = true)
    ∨ (c = 123 ∧ r.2 = scanBeginObject ∧ r.1.step = StepFn.beginStringOrEmpty
        ∧ s.step.begins = true)
    ∨ (c = 91 ∧ r.2 = scanBeginArray ∧ r.1.step = StepFn.beginValueOrEmpty
        ∧ s.step.begins = true)
    ∨ (c = 58 ∧ r.2 = scanObjectKey ∧ r.1.step = StepFn.beginValue
        ∧ s.step.afterOpen = false)
    ∨ (c = 44 ∧ (r.2 = scanObjectValue ∨ r.2 = scanArrayValue) ∧ r.1.step.begins = true
        ∧ s.step.afterOpen = false)
    ∨ (c = 125 ∧ r.2 = scanEndObject ∧ skips s)
    ∨ (c = 93 ∧ r.2 = scanEndArray ∧ skips s)
    ∨ (r.2 = scanEnd ∧ isSpace c = true ∧ plainByte c ∧ s.step.afterOpen = false)

/-- What one round of the loop of `appendIndent` does after the scanner has
returned the code `v` for the byte `c`, when `v` is neither `scanSkipSpace` nor
`scanError`. -/
def emitStep (pre indent : Bytes) (st : IndentState) (c : Nat) (v : ScanCode) : IndentState :=
  let st :=
    if st.needIndent ∧ v ≠ scanEndObject ∧ v ≠ scanEndArray then
      { st with needIndent := false, depth := st.depth + 1,
                dst := appendNewline st.dst pre indent (st.depth + 1) }
    else st
  if v = scanContinue then { st with dst := st.dst ++ [c] }
  else if c = 123 ∨ c = 91 then { st with needIndent := true, dst := st.dst ++ [c] }
  else if c = 44 then { st with dst := appendNewline (st.dst ++ [c]) pre indent st.depth }
  else if c = 58 then { st with dst := st.dst ++ [c, 32] }
  else if c = 125 ∨ c = 93 then
    let st :=
      if st.needIndent then { st with needIndent := false }
      else { st with depth := st.depth - 1,
                     dst := appendNewline st.dst pre indent (st.depth - 1) }
    { st with dst := st.dst ++ [c] }
  else { st with dst := st.dst ++ [c] }

/-- The statement `scan.bytes++` that precedes every step in the loops. -/
def scanner.bump (s : scanner) : scanner := { s with bytes := s.bytes + 1 }

/-- The loop variables with the scanner replaced. -/
def IndentState.withScan (st : IndentState) (s : scanner) : IndentState := { st with scan := s }

/-- Two runs of the indenter agree on what they have written and on their
variables, their scanners are related, and a pending indent means the scanner
is right behind an opening bracket. -/
def IndentRel (st1 st2 : IndentState) : Prop :=
  st1.dst = st2.dst ∧ st1.needIndent = st2.needIndent ∧ st1.depth = st2.depth
    ∧ ScanRel st1.scan st2.scan
    ∧ (st1.needIndent = true → st1.scan.step.afterOpen = true)

/-- The animation cycle of the spec: three frames. -/
def animationCycle : List String := [".  ", ".. ", "..."]

/-- The result of the timeout branch taken in loop state `s`. -/
def timeoutResult (s : LoopVars) : FetchResult :=
  { data := none, err := some "request timed out", vars := s,
    returnedAt := pollTime s, received := false }

/-- The result of the receive branch taken in loop state `s`. -/
def recvResult (response : Response) (s : LoopVars) : FetchResult :=
  { data := response.data, err := response.err, vars := s,
    returnedAt := pollTime s, received := true }

/-- The index of the first poll at or after time `t`. -/
def firstPoll (t : Nat) : Nat := (t + (sleepInterval - 1)) / sleepInterval

/-! ## The background task and the process (main.go 23-38 and 61-74) -/

end HttpSample

namespace HttpSample

open ScanCode ParseState

/-! ## The polling loop: basic facts -/

theorem sleepInterval_eq : sleepInterval = 130000000 := by
  simp [sleepInterval, Millisecond]

theorem iter_defaultBranch (s : LoopVars) : (defaultBranch s).iter = s.iter + 1 := by
  unfold defaultBranch
  split_ifs <;> rfl

theorem iter_iterate (n : Nat) (s : LoopVars) : (defaultBranch^[n] s).iter = s.iter + n := by
  induction n generalizing s with
  | zero => simp
  | succ n ih =>
    rw [Function.iterate_succ_apply, ih, iter_defaultBranch]
    omega

theorem pollLoop_succ_dflt (D R : Nat) (resp : Response) (pick : Nat → Bool) (fuel : Nat)
    (s : LoopVars) (hD : pollTime s < D) (hR : pollTime s < R) :
    pollLoop D R resp pick (fuel + 1) s = pollLoop D R resp pick fuel (defaultBranch s) := by
  have h1 : decide (D ≤ pollTime s) = false := by simp [hD]
  have h2 : decide (R ≤ pollTime s) = false := by simp [hR]
  simp [pollLoop, h1, h2, selectBranch]

theorem pollLoop_skip (D R : Nat) (resp : Response) (pick : Nat → Bool) (n fuel : Nat)
    (s : LoopVars)
    (h : ∀ k, k < n → (s.iter + k) * sleepInterval < D ∧ (s.iter + k) * sleepInterval < R) :
    pollLoop D R resp pick (n + fuel) s = pollLoop D R resp pick fuel (defaultBranch^[n] s) := by
  induction n generalizing s with
  | zero => simp
  | succ n ih =>
    have h0 := h 0 (Nat.succ_pos n)
    rw [show n + 1 + fuel = (n + fuel) + 1 by omega,
      pollLoop_succ_dflt D R resp pick (n + fuel) s (by simpa [pollTime] using h0.1)
        (by simpa [pollTime] using h0.2),
      Function.iterate_succ_apply]
    apply ih
    intro k hk
    have hi : (defaultBranch s).iter = s.iter + 1 := iter_defaultBranch s
    have := h (k + 1) (by omega)
    rw [hi, show s.iter + 1 + k = s.iter + (k + 1) by omega]
    exact this

theorem pollLoop_at (D R : Nat) (resp : Response) (pick : Nat → Bool) (fuel : Nat)
    (s : LoopVars) :
    pollLoop D R resp pick (fuel + 1) s =
      match selectBranch (decide (D ≤ pollTime s)) (decide (R ≤ pollTime s)) (pick s.iter) with
      | Branch.ctxDone => some (timeoutResult s)
      | Branch.recv => some (recvResult resp s)
      | Branch.dflt => pollLoop D R resp pick fuel (defaultBranch s) := by
  simp only [pollLoop, timeoutResult, recvResult]

theorem pollTime_iterate (n : Nat) : pollTime (defaultBranch^[n] loopInit) = n * sleepInterval := by
  simp [pollTime, iter_iterate, loopInit]

/-- From the initial state the loop takes the default branch at every poll before
both the deadline and the completion time. -/
theorem pollLoop_reach (D R : Nat) (resp : Response) (pick : Nat → Bool) (n fuel : Nat)
    (h : ∀ k, k < n → k * sleepInterval < D ∧ k * sleepInterval < R) :
    pollLoop D R resp pick (n + fuel) loopInit
      = pollLoop D R resp pick fuel (defaultBranch^[n] loopInit) := by
  apply pollLoop_skip
  intro k hk
  simpa [loopInit] using h k hk

theorem le_firstPoll_mul (t : Nat) : t ≤ firstPoll t * sleepInterval := by
  simp only [firstPoll, sleepInterval_eq]
  omega

theorem firstPoll_mul_lt (t : Nat) : firstPoll t * sleepInterval < t + sleepInterval := by
  simp only [firstPoll, sleepInterval_eq]
  omega

theorem mul_lt_of_lt_firstPoll (k t : Nat) (h : k < firstPoll t) : k * sleepInterval < t := by
  simp only [firstPoll, sleepInterval_eq] at *
  omega

theorem firstPoll_mono (a b : Nat) (h : a ≤ b) : firstPoll a ≤ firstPoll b := by
  simp only [firstPoll, sleepInterval_eq]
  omega

theorem firstPoll_le_div (t : Nat) : firstPoll t ≤ t / sleepInterval + 1 := by
  simp only [firstPoll, sleepInterval_eq]
  omega

theorem fetchData_ok (env : Env) (fuel : Nat) (name : String) (request : Request)
    (hreq : env.NewRequest "GET" ("https://api.genderize.io?name=" ++ name) = Except.ok request) :
    fetchData env fuel name =
      pollLoop env.deadline env.completion
        { data := (makeHttpRequest request env.Do).1, err := (makeHttpRequest request env.Do).2 }
        env.pick fuel loopInit := by
  simp [fetchData, hreq]

theorem fetchData_sampleEnv (D R : Nat) (pick : Nat → Bool) (fuel : Nat) (name : String) :
    fetchData (sampleEnv D R pick) fuel name
      = pollLoop D R { data := some samBody, err := none } pick fuel loopInit := rfl

/-- The loop runs default iterations up to the first poll at or after the
earlier of deadline and completion, and returns at that poll. -/
theorem pollLoop_first (D R : Nat) (resp : Response) (pick : Nat → Bool) (fuel : Nat)
    (hfuel : firstPoll (min D R) < fuel) :
    pollLoop D R resp pick fuel loopInit =
      match selectBranch (decide (D ≤ firstPoll (min D R) * sleepInterval))
          (decide (R ≤ firstPoll (min D R) * sleepInterval)) (pick (firstPoll (min D R))) with
      | Branch.ctxDone => some (timeoutResult (defaultBranch^[firstPoll (min D R)] loopInit))
      | Branch.recv => some (recvResult resp (defaultBranch^[firstPoll (min D R)] loopInit))
      | Branch.dflt => none := by
  obtain ⟨f, rfl⟩ : ∃ f, fuel = firstPoll (min D R) + (f + 1) := ⟨fuel - firstPoll (min D R) - 1, by omega⟩
  rw [pollLoop_reach D R resp pick (firstPoll (min D R)) (f + 1), pollLoop_at, pollTime_iterate]
  · have hge := le_firstPoll_mul (min D R)
    have hiter : (defaultBranch^[firstPoll (min D R)] loopInit).iter = firstPoll (min D R) := by
      simp [iter_iterate, loopInit]
    rw [hiter]
    by_cases h1 : D ≤ firstPoll (min D R) * sleepInterval
    · by_cases h2 : R ≤ firstPoll (min D R) * sleepInterval
      · simp only [h1, h2, decide_True, selectBranch]
        split_ifs <;> rfl
      · simp only [h1, h2, decide_True, decide_False, selectBranch]
    · by_cases h2 : R ≤ firstPoll (min D R) * sleepInterval
      · simp only [h1, h2, decide_True, decide_False, selectBranch]
      · exfalso
        rcases Nat.le_total D R with h | h
        · rw [Nat.min_eq_left h] at hge h1; exact h1 hge
        · rw [Nat.min_eq_right h] at hge h2; exact h2 hge
  · intro k hk
    have := mul_lt_of_lt_firstPoll k (min D R) hk
    exact ⟨lt_of_lt_of_le this (Nat.min_le_left D R), lt_of_lt_of_le this (Nat.min_le_right D R)⟩

/-! ## Claims on the race between deadline and completion -/

/-- C1, as stated, fails: with the deadline at 5000 ms and the background call
completing at 5050 ms (deadline strictly first), the poll at 5070 ms finds both
cases ready; when `select` picks the receive case, `fetchData` hands back the
payload of the background call with a nil error, not the timeout. -/
theorem fetchData_late_payload_returned :
    mainTimeout < Millisecond * 5050 ∧
    (fetchData (sampleEnv mainTimeout (Millisecond * 5050) (fun _ => false)) 40 "sam").map
        (fun r => (r.data, r.err)) = some (some samBody, none) := by
  refine ⟨by decide, ?_⟩
  have hfp : firstPoll (min mainTimeout (Millisecond * 5050)) = 39 := by decide
  have h1 : decide (mainTimeout ≤ 39 * sleepInterval) = true := by decide
  have h2 : decide (Millisecond * 5050 ≤ 39 * sleepInterval) = true := by decide
  rw [fetchData_sampleEnv, pollLoop_first _ _ _ _ _ (by rw [hfp]; decide), hfp, h1, h2]
  rfl

/-- When the first poll at or after the deadline comes strictly before the
completion of the background call, the loop of `fetchData` returns the timeout
at that poll. -/
theorem fetchData_timeout_before_completion (env : Env) (fuel : Nat) (name : String)
    (request : Request)
    (hreq : env.NewRequest "GET" ("https://api.genderize.io?name=" ++ name) = Except.ok request)
    (hpoll : firstPoll env.deadline * sleepInterval < env.completion)
    (hfuel : firstPoll env.deadline < fuel) :
    ∃ r, fetchData env fuel name = some r ∧ r.data = none ∧ r.err = some "request timed out"
      ∧ r.received = false ∧ r.returnedAt = firstPoll env.deadline * sleepInterval := by
  have hDR : env.deadline ≤ env.completion :=
    le_of_lt (lt_of_le_of_lt (le_firstPoll_mul env.deadline) hpoll)
  have hmin : min env.deadline env.completion = env.deadline := Nat.min_eq_left hDR
  rw [fetchData_ok env fuel name request hreq, pollLoop_first _ _ _ _ _ (by rw [hmin]; exact hfuel),
    hmin]
  have h1 : decide (env.deadline ≤ firstPoll env.deadline * sleepInterval) = true := by
    simpa using le_firstPoll_mul env.deadline
  have h2 : decide (env.completion ≤ firstPoll env.deadline * sleepInterval) = false := by
    simpa using hpoll
  rw [h1, h2]
  exact ⟨_, rfl, rfl, rfl, rfl, by simp [timeoutResult, pollTime_iterate]⟩

/-- C1, amended: when the first poll at or after the deadline comes strictly
before the completion of the background call, `fetchData` returns nil data and
the error "request timed out" at that poll, whatever `select` picks, and the
value of the background call is not received. -/
theorem fetchData_timeout_when_polled_before_completion (env : Env) (fuel : Nat) (name : String)
    (request : Request)
    (hreq : env.NewRequest "GET" ("https://api.genderize.io?name=" ++ name) = Except.ok request)
    (hpoll : firstPoll env.deadline * sleepInterval < env.completion)
    (hfuel : firstPoll env.deadline < fuel) :
    ∃ r, fetchData env fuel name = some r ∧ r.data = none ∧ r.err = some "request timed out"
      ∧ r.received = false ∧ r.returnedAt = firstPoll env.deadline * sleepInterval :=
  fetchData_timeout_before_completion env fuel name request hreq hpoll hfuel

theorem fetchData_timeout_when_polled_before_completion_witness :
    ∃ r, fetchData (sampleEnv mainTimeout (Millisecond * 6000) (fun _ => false)) 40 "sam" = some r
      ∧ r.data = none ∧ r.err = some "request timed out" ∧ r.received = false
      ∧ r.returnedAt
        = firstPoll (sampleEnv mainTimeout (Millisecond * 6000) (fun _ => false)).deadline
          * sleepInterval :=
  fetchData_timeout_when_polled_before_completion
    (sampleEnv mainTimeout (Millisecond * 6000) (fun _ => false)) 40 "sam"
    { method := "GET", url := "https://api.genderize.io?name=" ++ "sam" } rfl
    (by decide) (by decide)

/-- C2, as stated, fails: with the background call completing at 4999 ms and
the deadline at 5000 ms (completion strictly first), the poll of index 38, at
4940 ms, finds nothing ready, and the next one, at 5070 ms, finds both cases
ready; when `select` picks `ctx.Done()`, `fetchData` returns the timeout error.
Completion and deadline lie 59 ms behind poll 38 and 70 ms before poll 39, so
the same happens when the iterations take a little longer than 130 ms. -/
theorem fetchData_early_result_lost :
    Millisecond * 4999 < mainTimeout ∧
    pollTime (defaultBranch^[38] loopInit) + Millisecond * 59 ≤ Millisecond * 4999 ∧
    mainTimeout + Millisecond * 70 ≤ pollTime (defaultBranch^[39] loopInit) ∧
    (fetchData (sampleEnv mainTimeout (Millisecond * 4999) (fun _ => true)) 40 "sam").map
        (fun r => (r.data, r.err)) = some (none, some "request timed out") := by
  refine ⟨by decide, ?_, ?_, ?_⟩
  · rw [pollTime_iterate]; decide
  · rw [pollTime_iterate]; decide
  have hfp : firstPoll (min mainTimeout (Millisecond * 4999)) = 39 := by decide
  have h1 : decide (mainTimeout ≤ 39 * sleepInterval) = true := by decide
  have h2 : decide (Millisecond * 4999 ≤ 39 * sleepInterval) = true := by decide
  rw [fetchData_sampleEnv, pollLoop_first _ _ _ _ _ (by rw [hfp]; decide), hfp, h1, h2]
  rfl

/-- C2, amended: when the first poll at or after the completion of the
background call comes strictly before the deadline, `fetchData` returns exactly
the pair that `makeHttpRequest` produced, whatever `select` picks, and returns
it at that poll: every default iteration (frame and sleep) it ran began before
the completion. -/
theorem fetchData_result_when_polled_before_deadline (env : Env) (fuel : Nat) (name : String)
    (request : Request)
    (hreq : env.NewRequest "GET" ("https://api.genderize.io?name=" ++ name) = Except.ok request)
    (hpoll : firstPoll env.completion * sleepInterval < env.deadline)
    (hfuel : firstPoll env.completion < fuel) :
    ∃ r, fetchData env fuel name = some r
      ∧ (r.data, r.err) = makeHttpRequest request env.Do
      ∧ r.received = true
      ∧ r.returnedAt = firstPoll env.completion * sleepInterval
      ∧ r.vars = defaultBranch^[firstPoll env.completion] loopInit
      ∧ r.vars.iter = firstPoll env.completion
      ∧ ∀ k, k < r.vars.iter → k * sleepInterval < env.completion := by
  have hRD : env.completion ≤ env.deadline :=
    le_of_lt (lt_of_le_of_lt (le_firstPoll_mul env.completion) hpoll)
  have hmin : min env.deadline env.completion = env.completion := Nat.min_eq_right hRD
  rw [fetchData_ok env fuel name request hreq, pollLoop_first _ _ _ _ _ (by rw [hmin]; exact hfuel),
    hmin]
  have h1 : decide (env.deadline ≤ firstPoll env.completion * sleepInterval) = false := by
    simpa using hpoll
  have h2 : decide (env.completion ≤ firstPoll env.completion * sleepInterval) = true := by
    simpa using le_firstPoll_mul env.completion
  rw [h1, h2]
  refine ⟨_, rfl, rfl, rfl, by simp [recvResult, pollTime_iterate], rfl, ?_, ?_⟩
  · simp [recvResult, iter_iterate, loopInit]
  · intro k hk
    have hk2 : k < firstPoll env.completion := by
      simpa [recvResult, iter_iterate, loopInit] using hk
    exact mul_lt_of_lt_firstPoll k env.completion hk2

theorem fetchData_result_when_polled_before_deadline_witness :
    ∃ r, fetchData (sampleEnv mainTimeout (Millisecond * 300) (fun _ => true)) 40 "sam" = some r
      ∧ (r.data, r.err)
        = makeHttpRequest { method := "GET", url := "https://api.genderize.io?name=" ++ "sam" }
            (sampleEnv mainTimeout (Millisecond * 300) (fun _ => true)).Do
      ∧ r.received = true
      ∧ r.returnedAt
        = firstPoll (sampleEnv mainTimeout (Millisecond * 300) (fun _ => true)).completion
          * sleepInterval
      ∧ r.vars
        = defaultBranch^[firstPoll
            (sampleEnv mainTimeout (Millisecond * 300) (fun _ => true)).completion] loopInit
      ∧ r.vars.iter
        = firstPoll (sampleEnv mainTimeout (Millisecond * 300) (fun _ => true)).completion
      ∧ ∀ k, k < r.vars.iter →
          k * sleepInterval
            < (sampleEnv mainTimeout (Millisecond * 300) (fun _ => true)).completion :=
  fetchData_result_when_polled_before_deadline
    (sampleEnv mainTimeout (Millisecond * 300) (fun _ => true)) 40 "sam"
    { method := "GET", url := "https://api.genderize.io?name=" ++ "sam" } rfl
    (by decide) (by decide)

/-- C3, as stated, fails: in the iteration at 5070 ms, where both `ctx.Done()`
(deadline 5000 ms) and the Response (sent at 5050 ms) are ready, `select` may
pick the receive case, and the loop then returns the received Response. -/
theorem pollLoop_both_ready_may_receive :
    mainTimeout ≤ pollTime (defaultBranch^[39] loopInit) ∧
    Millisecond * 5050 ≤ pollTime (defaultBranch^[39] loopInit) ∧
    (pollLoop mainTimeout (Millisecond * 5050) { data := some samBody, err := none }
        (fun _ => false) 1 (defaultBranch^[39] loopInit)).map (fun r => (r.data, r.err))
      = some (some samBody, none) := by
  have h1 : decide (mainTimeout ≤ 39 * sleepInterval) = true := by decide
  have h2 : decide (Millisecond * 5050 ≤ 39 * sleepInterval) = true := by decide
  refine ⟨?_, ?_, ?_⟩
  · rw [pollTime_iterate]; exact of_decide_eq_true h1
  · rw [pollTime_iterate]; exact of_decide_eq_true h2
  · rw [pollLoop_at, pollTime_iterate, h1, h2]
    rfl

/-- C3, amended: in an iteration in which both `ctx.Done()` is ready and a
Response is available, the loop returns in that iteration, never taking the
default branch: the timeout error when `select` picks the deadline case, the
received Response when it picks the receive case. -/
theorem pollLoop_both_ready (D R : Nat) (resp : Response) (pick : Nat → Bool) (fuel : Nat)
    (s : LoopVars) (hD : D ≤ pollTime s) (hR : R ≤ pollTime s) :
    pollLoop D R resp pick (fuel + 1) s
      = some (if pick s.iter then timeoutResult s else recvResult resp s) := by
  have h1 : decide (D ≤ pollTime s) = true := by simpa using hD
  have h2 : decide (R ≤ pollTime s) = true := by simpa using hR
  rw [pollLoop_at, h1, h2]
  simp only [selectBranch]
  split_ifs <;> rfl

theorem pollLoop_both_ready_witness :
    pollLoop 0 0 { data := some samBody, err := none } (fun _ => true) (0 + 1) loopInit
      = some (if (fun _ => true) loopInit.iter then timeoutResult loopInit
          else recvResult { data := some samBody, err := none } loopInit) :=
  pollLoop_both_ready 0 0 { data := some samBody, err := none } (fun _ => true) 0 loopInit
    (Nat.zero_le _) (Nat.zero_le _)

/-- With enough fuel the loop returns, by one of its two return statements. -/
theorem pollLoop_returns (D R : Nat) (resp : Response) (pick : Nat → Bool) (fuel : Nat)
    (hfuel : firstPoll (min D R) < fuel) :
    pollLoop D R resp pick fuel loopInit
        = some (timeoutResult (defaultBranch^[firstPoll (min D R)] loopInit))
      ∨ pollLoop D R resp pick fuel loopInit
        = some (recvResult resp (defaultBranch^[firstPoll (min D R)] loopInit)) := by
  rw [pollLoop_first D R resp pick fuel hfuel]
  have hge := le_firstPoll_mul (min D R)
  by_cases h1 : D ≤ firstPoll (min D R) * sleepInterval
  · by_cases h2 : R ≤ firstPoll (min D R) * sleepInterval
    · simp only [h1, h2, decide_True, selectBranch]
      split_ifs <;> simp
    · simp only [h1, h2, decide_True, decide_False, selectBranch]
      simp
  · by_cases h2 : R ≤ firstPoll (min D R) * sleepInterval
    · simp only [h1, h2, decide_True, decide_False, selectBranch]
      simp
    · exfalso
      rcases Nat.le_total D R with h | h
      · rw [Nat.min_eq_left h] at hge h1; exact h1 hge
      · rw [Nat.min_eq_right h] at hge h2; exact h2 hge

theorem fuel_enough (D R fuel : Nat) (hfuel : D / sleepInterval + 1 < fuel) :
    firstPoll (min D R) < fuel :=
  lt_of_le_of_lt (le_trans (firstPoll_mono _ _ (Nat.min_le_left D R)) (firstPoll_le_div D)) hfuel

theorem makeHttpRequest_never_both (request : Request)
    (Do : Request → Except String HttpResponse) :
    (makeHttpRequest request Do).1 = none ∨ (makeHttpRequest request Do).2 = none := by
  unfold makeHttpRequest
  cases Do request with
  | error e => simp
  | ok response =>
    rcases h : response.readAll with ⟨body, _ | e⟩ <;> simp [h]

/-- C4: `fetchData` returns (with enough fuel for the loop to reach the
deadline), and in what it returns, whether from request construction, the
timeout branch or the receive branch, data and error are never both non-nil. -/
theorem fetchData_never_both (env : Env) (fuel : Nat) (name : String)
    (hfuel : env.deadline / sleepInterval + 1 < fuel) :
    ∃ r, fetchData env fuel name = some r ∧ ¬ (r.data ≠ none ∧ r.err ≠ none) := by
  rcases hreq : env.NewRequest "GET" ("https://api.genderize.io?name=" ++ name) with e | request
  · exact ⟨{ data := none, err := some e, vars := loopInit, returnedAt := 0, received := false },
      by simp [fetchData, hreq], by simp⟩
  · rw [fetchData_ok env fuel name request hreq]
    rcases pollLoop_returns env.deadline env.completion
        { data := (makeHttpRequest request env.Do).1, err := (makeHttpRequest request env.Do).2 }
        env.pick fuel (fuel_enough _ _ _ hfuel) with h | h
    · exact ⟨_, h, by simp [timeoutResult]⟩
    · refine ⟨_, h, ?_⟩
      rcases makeHttpRequest_never_both request env.Do with h1 | h1 <;> simp [recvResult, h1]

theorem fetchData_never_both_witness :
    ∃ r, fetchData (sampleEnv mainTimeout (Millisecond * 300) (fun _ => true)) 40 "sam" = some r
      ∧ ¬ (r.data ≠ none ∧ r.err ≠ none) :=
  fetchData_never_both (sampleEnv mainTimeout (Millisecond * 300) (fun _ => true)) 40 "sam"
    (by decide)

/-! ## The animation -/

/-- After `n` default iterations from the start: the index is `n mod 3` and the
strings printed are frame `k mod 3` of the cycle for `k = 0 .. n-1`. -/
theorem iterate_frames (n : Nat) :
    (defaultBranch^[n] loopInit).i = ((n % 3 : Nat) : Int)
      ∧ (defaultBranch^[n] loopInit).printed
        = (List.range n).map
            (fun k => "\rwaiting for response" ++ animationCycle.getD (k % 3) "") := by
  induction n with
  | zero => exact ⟨rfl, rfl⟩
  | succ n ih =>
    obtain ⟨hi, hp⟩ := ih
    rw [Function.iterate_succ_apply', List.range_succ, List.map_append]
    have h3 : n % 3 = 0 ∨ n % 3 = 1 ∨ n % 3 = 2 := by omega
    rcases h3 with h | h | h
    · have h' : (n + 1) % 3 = 1 := by omega
      rw [h] at hi
      simp [defaultBranch, hi, hp, h, h', animationCycle]
    · have h' : (n + 1) % 3 = 2 := by omega
      rw [h] at hi
      simp [defaultBranch, hi, hp, h, h', animationCycle]
    · have h' : (n + 1) % 3 = 0 := by omega
      rw [h] at hi
      simp [defaultBranch, hi, hp, h, h', animationCycle]

/-- C5: if at the first `N` polls neither the deadline nor the result is ready,
the loop takes the default branch `N` times, the strings printed are
"\rwaiting for response" followed by the frame at index `k mod 3` of
[".  ", ".. ", "..."] for `k = 0 .. N-1`, and the index `i` at the top of the
loop is `N mod 3`: 0 at the start, always in {0,1,2}, back to 0 after the third
frame. -/
theorem pollLoop_animation (D R : Nat) (resp : Response) (pick : Nat → Bool) (N fuel : Nat)
    (h : ∀ k, k < N → k * sleepInterval < D ∧ k * sleepInterval < R) :
    pollLoop D R resp pick (N + fuel) loopInit
        = pollLoop D R resp pick fuel (defaultBranch^[N] loopInit)
      ∧ (defaultBranch^[N] loopInit).printed
        = (List.range N).map
            (fun k => "\rwaiting for response" ++ animationCycle.getD (k % 3) "")
      ∧ (defaultBranch^[N] loopInit).i = ((N % 3 : Nat) : Int)
      ∧ (defaultBranch^[N] loopInit).iter = N :=
  ⟨pollLoop_reach D R resp pick N fuel h, (iterate_frames N).2, (iterate_frames N).1,
    by simp [iter_iterate, loopInit]⟩

theorem pollLoop_animation_witness :
    pollLoop mainTimeout (Millisecond * 6000) { data := some samBody, err := none }
          (fun _ => true) (4 + 1) loopInit
        = pollLoop mainTimeout (Millisecond * 6000) { data := some samBody, err := none }
          (fun _ => true) 1 (defaultBranch^[4] loopInit)
      ∧ (defaultBranch^[4] loopInit).printed
        = (List.range 4).map
            (fun k => "\rwaiting for response" ++ animationCycle.getD (k % 3) "")
      ∧ (defaultBranch^[4] loopInit).i = ((4 % 3 : Nat) : Int)
      ∧ (defaultBranch^[4] loopInit).iter = 4 :=
  pollLoop_animation mainTimeout (Millisecond * 6000) { data := some samBody, err := none }
    (fun _ => true) 4 1 (by
      intro k hk
      simp only [sleepInterval_eq, mainTimeout, Millisecond, TIMEOUT]
      omega)

/-! ## The deadline bound -/

/-- C9: in the timing model where the polls happen at multiples of the 130 ms
sleep, `fetchData` returns no later than the first poll at or after the
deadline, hence no later than the deadline plus 130 ms, whatever the completion
time and the picks of `select`. With the deadline of `main`
(`time.Millisecond*TIMEOUT`, 5000 ms) and a background call completing at
6000 ms it returns the timeout error before 5100 ms. -/
theorem fetchData_returns_within_slack (env : Env) (fuel : Nat) (name : String)
    (hfuel : env.deadline / sleepInterval + 1 < fuel) :
    ∃ r, fetchData env fuel name = some r
      ∧ r.returnedAt ≤ firstPoll env.deadline * sleepInterval
      ∧ r.returnedAt ≤ env.deadline + sleepInterval
      ∧ (∀ request,
          env.NewRequest "GET" ("https://api.genderize.io?name=" ++ name) = Except.ok request →
          env.deadline = mainTimeout → env.completion = Millisecond * 6000 →
          r.data = none ∧ r.err = some "request timed out"
            ∧ r.returnedAt < Millisecond * 5100) := by
  have hslack : firstPoll env.deadline * sleepInterval ≤ env.deadline + sleepInterval :=
    le_of_lt (firstPoll_mul_lt env.deadline)
  rcases hreq : env.NewRequest "GET" ("https://api.genderize.io?name=" ++ name) with e | request
  · refine ⟨{ data := none, err := some e, vars := loopInit, returnedAt := 0, received := false },
      by simp [fetchData, hreq], Nat.zero_le _, Nat.zero_le _, ?_⟩
    intro request h
    cases h
  · have hmono : firstPoll (min env.deadline env.completion) * sleepInterval
        ≤ firstPoll env.deadline * sleepInterval :=
      Nat.mul_le_mul_right _ (firstPoll_mono _ _ (Nat.min_le_left _ _))
    have hspecial : ∀ r : FetchResult,
        fetchData env fuel name = some r →
        env.deadline = mainTimeout → env.completion = Millisecond * 6000 →
        r.data = none ∧ r.err = some "request timed out" ∧ r.returnedAt < Millisecond * 5100 := by
      intro r hr hD hR
      have hpoll : firstPoll env.deadline * sleepInterval < env.completion := by
        rw [hD, hR]; decide
      obtain ⟨r', hr', hd, he, _, ht⟩ :=
        fetchData_timeout_before_completion env fuel name request hreq hpoll
          (lt_of_le_of_lt (firstPoll_le_div env.deadline) hfuel)
      rw [hr] at hr'
      cases hr'
      refine ⟨hd, he, ?_⟩
      rw [ht, hD]
      decide
    rw [fetchData_ok env fuel name request hreq] at hspecial ⊢
    rcases pollLoop_returns env.deadline env.completion
        { data := (makeHttpRequest request env.Do).1, err := (makeHttpRequest request env.Do).2 }
        env.pick fuel (fuel_enough _ _ _ hfuel) with h | h
    · refine ⟨_, h, ?_, ?_, fun _ _ => hspecial _ h⟩
      · simpa [timeoutResult, pollTime_iterate] using hmono
      · simpa [timeoutResult, pollTime_iterate] using le_trans hmono hslack
    · refine ⟨_, h, ?_, ?_, fun _ _ => hspecial _ h⟩
      · simpa [recvResult, pollTime_iterate] using hmono
      · simpa [recvResult, pollTime_iterate] using le_trans hmono hslack

theorem fetchData_returns_within_slack_witness :
    ∃ r, fetchData (sampleEnv mainTimeout (Millisecond * 6000) (fun _ => false)) 40 "sam" = some r
      ∧ r.returnedAt ≤ mainTimeout + sleepInterval
      ∧ r.data = none ∧ r.err = some "request timed out" ∧ r.returnedAt < Millisecond * 5100 := by
  obtain ⟨r, hr, _, h2, h3⟩ :=
    fetchData_returns_within_slack
      (sampleEnv mainTimeout (Millisecond * 6000) (fun _ => false)) 40 "sam" (by decide)
  exact ⟨r, hr, h2, h3 _ rfl rfl rfl⟩

/-! ## The send of the background task -/

theorem core_eq_iff (s1 s2 : scanner) :
    s1.core = s2.core ↔ s1.step = s2.step ∧ s1.endTop = s2.endTop ∧ s1.parseState = s2.parseState
      ∧ s1.err.isSome = s2.err.isSome := by
  simp [scanner.core]

theorem isSpace_iff (c : Nat) : isSpace c = true ↔ c = 32 ∨ c = 9 ∨ c = 13 ∨ c = 10 := by
  simp only [isSpace, Bool.and_eq_true, Bool.or_eq_true, decide_eq_true_eq, beq_iff_eq]
  omega

theorem isSpace_plain (c : Nat) (h : isSpace c = true) : plainByte c := by
  rw [isSpace_iff] at h
  unfold plainByte
  omega

theorem isSpace_not_digit (c : Nat) (h : isSpace c = true) : isDigit c = false := by
  rw [isSpace_iff] at h
  rcases h with rfl | rfl | rfl | rfl <;> rfl

/-! ### The state after a value -/

theorem stateEndValue_step (s : scanner) (x : StepFn) (c : Nat) :
    stateEndValue { s with step := x } c = stateEndValue s c := by
  rcases s with ⟨step, endTop, ps, err, b⟩
  rcases ps with _ | ⟨p, ps⟩
  · simp [stateEndValue, stateEndTop, scanner.error]
  · cases p <;> simp [stateEndValue, scanner.error, scanner.popParseState]

theorem stateEndValue_space (s : scanner) (c : Nat) (hc : isSpace c = true)
    (hps : s.parseState ≠ []) :
    stateEndValue s c = ({ s with step := StepFn.endValue }, scanSkipSpace) := by
  rcases s with ⟨step, endTop, ps, err, b⟩
  rcases ps with _ | ⟨p, ps⟩
  · exact absurd rfl hps
  · simp [stateEndValue, hc]

theorem stateEndValue_ne_continue (s : scanner) (c : Nat) :
    (stateEndValue s c).2 ≠ scanContinue := by
  rcases s with ⟨step, endTop, ps, err, b⟩
  rcases ps with _ | ⟨p, ps⟩
  · simp only [stateEndValue, stateEndTop]
    by_cases h : isSpace c = true <;> simp [h]
  · simp only [stateEndValue]
    by_cases h : isSpace c = true
    · simp [h]
    · simp only [h, if_false]
      cases p
      · by_cases h1 : c = 58 <;> simp [h, h1, scanner.error]
      · by_cases h1 : c = 44
        · simp [h, h1]
        · by_cases h2 : c = 125 <;> simp [h, h1, h2, scanner.error]
      · by_cases h1 : c = 44
        · simp [h, h1]
        · by_cases h2 : c = 93 <;> simp [h, h1, h2, scanner.error]

/-- The outcomes of `stateEndValue` that neither skip nor fail. -/
theorem stateEndValue_class (s0 : scanner) (c : Nat) (hs : s0.err = none)
    (h1 : (stateEndValue s0 c).2 ≠ scanSkipSpace) (h2 : (stateEndValue s0 c).2 ≠ scanError)
    (h3 : (stateEndValue s0 c).1.err = none) :
    (c = 58 ∧ (stateEndValue s0 c).2 = scanObjectKey
        ∧ (stateEndValue s0 c).1.step = StepFn.beginValue)
      ∨ (c = 44 ∧ ((stateEndValue s0 c).2 = scanObjectValue ∨ (stateEndValue s0 c).2 = scanArrayValue)
        ∧ (stateEndValue s0 c).1.step.begins = true)
      ∨ (c = 125 ∧ (stateEndValue s0 c).2 = scanEndObject ∧ s0.parseState ≠ [])
      ∨ (c = 93 ∧ (stateEndValue s0 c).2 = scanEndArray ∧ s0.parseState ≠ [])
      ∨ ((stateEndValue s0 c).2 = scanEnd ∧ isSpace c = true) := by
  rcases s0 with ⟨step, endTop, ps, err, b⟩
  simp only at hs
  subst hs
  rcases ps with _ | ⟨p, ps⟩
  · simp only [stateEndValue, stateEndTop] at h1 h2 h3 ⊢
    by_cases h : isSpace c = true
    · simp [h]
    · simp [h, scanner.error] at h3
  · simp only [stateEndValue] at h1 h2 h3 ⊢
    by_cases h : isSpace c = true
    · simp [h] at h1
    · simp only [h, if_false] at h1 h2 h3 ⊢
      cases p
      · by_cases hc : c = 58
        · simp [h, hc, StepFn.begins]
        · simp [h, hc, scanner.error] at h2
      · by_cases hc : c = 44
        · simp [h, hc, StepFn.begins]
        · by_cases hc2 : c = 125
          · simp [h, hc2]
          · simp [h, hc, hc2, scanner.error] at h2
      · by_cases hc : c = 44
        · simp [h, hc, StepFn.begins]
        · by_cases hc2 : c = 93
          · simp [h, hc2]
          · simp [h, hc, hc2, scanner.error] at h2

theorem class_endValue_plain (s : scanner) (c : Nat) (hs : s.err = none)
    (hst : s.step = StepFn.endValue ∨ s.step.endsNumber = true)
    (h1 : (stateEndValue s c).2 ≠ scanSkipSpace) (h2 : (stateEndValue s c).2 ≠ scanError)
    (h3 : (stateEndValue s c).1.err = none) :
    Classified s c (stateEndValue s c) := by
  have hao : s.step.afterOpen = false := by
    rcases hst with h | h
    · rw [h]; rfl
    · revert h; cases s.step <;> simp [StepFn.endsNumber, StepFn.afterOpen]
  unfold Classified
  rcases stateEndValue_class s c hs h1 h2 h3 with h | h | h | h | h
  · exact Or.inr (Or.inr (Or.inr (Or.inr (Or.inl ⟨h.1, h.2.1, h.2.2, hao⟩))))
  · exact Or.inr (Or.inr (Or.inr (Or.inr (Or.inr (Or.inl ⟨h.1, h.2.1, h.2.2, hao⟩)))))
  · exact Or.inr (Or.inr (Or.inr (Or.inr (Or.inr (Or.inr (Or.inl
      ⟨h.1, h.2.1, Or.inr ⟨hst, h.2.2⟩⟩))))))
  · exact Or.inr (Or.inr (Or.inr (Or.inr (Or.inr (Or.inr (Or.inr (Or.inl
      ⟨h.1, h.2.1, Or.inr ⟨hst, h.2.2⟩⟩)))))))
  · exact Or.inr (Or.inr (Or.inr (Or.inr (Or.inr (Or.inr (Or.inr (Or.inr
      ⟨h.1, h.2, isSpace_plain c h.2, hao⟩)))))))

theorem class_endValue_close (s s0 : scanner) (c : Nat) (hs : s0.err = none)
    (hst : s.step.begins = true) (hc : c = 125 ∨ c = 93)
    (h1 : (stateEndValue s0 c).2 ≠ scanSkipSpace) (h2 : (stateEndValue s0 c).2 ≠ scanError)
    (h3 : (stateEndValue s0 c).1.err = none) :
    Classified s c (stateEndValue s0 c) := by
  unfold Classified
  rcases stateEndValue_class s0 c hs h1 h2 h3 with h | h | h | h | h
  · omega
  · omega
  · exact Or.inr (Or.inr (Or.inr (Or.inr (Or.inr (Or.inr (Or.inl
      ⟨h.1, h.2.1, Or.inl hst⟩))))))
  · exact Or.inr (Or.inr (Or.inr (Or.inr (Or.inr (Or.inr (Or.inr (Or.inl
      ⟨h.1, h.2.1, Or.inl hst⟩)))))))
  · have := (isSpace_iff c).1 h.2
    omega

/-! ### The states that begin a value or a key -/

theorem stateBeginValue_class (s : scanner) (c : Nat) (hns : ¬ isSpace c = true)
    (h2 : (stateBeginValue s c).2 ≠ scanError) :
    ((stateBeginValue s c).2 = scanBeginLiteral ∧ plainByte c)
      ∨ (c = 123 ∧ (stateBeginValue s c).2 = scanBeginObject
        ∧ (stateBeginValue s c).1.step = StepFn.beginStringOrEmpty)
      ∨ (c = 91 ∧ (stateBeginValue s c).2 = scanBeginArray
        ∧ (stateBeginValue s c).1.step = StepFn.beginValueOrEmpty) := by
  unfold stateBeginValue at h2 ⊢
  rw [if_neg hns] at h2 ⊢
  by_cases hc : c = 123
  · rw [if_pos hc] at h2 ⊢
    simp only [scanner.pushParseState, List.length_cons] at h2 ⊢
    by_cases hd : s.parseState.length + 1 ≤ maxNestingDepth
    · simp [hd, hc]
    · simp [hd, scanner.error] at h2
  rw [if_neg hc] at h2 ⊢
  by_cases hc1 : c = 91
  · rw [if_pos hc1] at h2 ⊢
    simp only [scanner.pushParseState, List.length_cons] at h2 ⊢
    by_cases hd : s.parseState.length + 1 ≤ maxNestingDepth
    · simp [hd, hc1]
    · simp [hd, scanner.error] at h2
  rw [if_neg hc1] at h2 ⊢
  left
  by_cases hc2 : c = 34
  · rw [if_pos hc2]; exact ⟨rfl, by unfold plainByte; omega⟩
  rw [if_neg hc2] at h2 ⊢
  by_cases hc3 : c = 45
  · rw [if_pos hc3]; exact ⟨rfl, by unfold plainByte; omega⟩
  rw [if_neg hc3] at h2 ⊢
  by_cases hc4 : c = 48
  · rw [if_pos hc4]; exact ⟨rfl, by unfold plainByte; omega⟩
  rw [if_neg hc4] at h2 ⊢
  by_cases hc5 : c = 116
  · rw [if_pos hc5]; exact ⟨rfl, by unfold plainByte; omega⟩
  rw [if_neg hc5] at h2 ⊢
  by_cases hc6 : c = 102
  · rw [if_pos hc6]; exact ⟨rfl, by unfold plainByte; omega⟩
  rw [if_neg hc6] at h2 ⊢
  by_cases hc7 : c = 110
  · rw [if_pos hc7]; exact ⟨rfl, by unfold plainByte; omega⟩
  rw [if_neg hc7] at h2 ⊢
  by_cases hc8 : 49 ≤ c ∧ c ≤ 57
  · rw [if_pos hc8]; exact ⟨rfl, by unfold plainByte; omega⟩
  rw [if_neg hc8] at h2
  simp [scanner.error] at h2

theorem class_beginValue (s : scanner) (c : Nat) (hst : s.step.begins = true)
    (hns : ¬ isSpace c = true) (h2 : (stateBeginValue s c).2 ≠ scanError) :
    Classified s c (stateBeginValue s c) := by
  unfold Classified
  rcases stateBeginValue_class s c hns h2 with h | h | h
  · exact Or.inr (Or.inl ⟨h.1, h.2, hst⟩)
  · exact Or.inr (Or.inr (Or.inl ⟨h.1, h.2.1, h.2.2, hst⟩))
  · exact Or.inr (Or.inr (Or.inr (Or.inl ⟨h.1, h.2.1, h.2.2, hst⟩)))

theorem class_beginString (s : scanner) (c : Nat) (hst : s.step.begins = true)
    (hns : ¬ isSpace c = true) (h2 : (stateBeginString s c).2 ≠ scanError) :
    Classified s c (stateBeginString s c) := by
  unfold stateBeginString at h2 ⊢
  rw [if_neg hns] at h2 ⊢
  by_cases hc : c = 34
  · rw [if_pos hc]
    exact Or.inr (Or.inl ⟨rfl, by unfold plainByte; omega, hst⟩)
  · rw [if_neg hc] at h2
    simp [scanner.error] at h2

/-! ### The states inside a literal -/

theorem inLiteral_cont : ScanCode.inLiteral scanContinue = true := rfl

theorem inLiteral_err : ScanCode.inLiteral scanError = true := rfl

theorem stateInString_code (s : scanner) (c : Nat) : (stateInString s c).2.inLiteral = true := by
  simp only [stateInString, scanner.error, apply_ite Prod.snd, apply_ite ScanCode.inLiteral,
    inLiteral_cont, inLiteral_err, ite_self]

theorem stateInStringEsc_code (s : scanner) (c : Nat) :
    (stateInStringEsc s c).2.inLiteral = true := by
  simp only [stateInStringEsc, scanner.error, apply_ite Prod.snd, apply_ite ScanCode.inLiteral,
    inLiteral_cont, inLiteral_err, ite_self]

theorem stateInStringEscHex_code (x : StepFn) (s : scanner) (c : Nat) :
    (stateInStringEscHex x s c).2.inLiteral = true := by
  simp only [stateInStringEscHex, scanner.error, apply_ite Prod.snd, apply_ite ScanCode.inLiteral,
    inLiteral_cont, inLiteral_err, ite_self]

theorem stateNeg_code (s : scanner) (c : Nat) : (stateNeg s c).2.inLiteral = true := by
  simp only [stateNeg, scanner.error, apply_ite Prod.snd, apply_ite ScanCode.inLiteral,
    inLiteral_cont, inLiteral_err, ite_self]

theorem stateDot_code (s : scanner) (c : Nat) : (stateDot s c).2.inLiteral = true := by
  simp only [stateDot, scanner.error, apply_ite Prod.snd, apply_ite ScanCode.inLiteral,
    inLiteral_cont, inLiteral_err, ite_self]

theorem stateESign_code (s : scanner) (c : Nat) : (stateESign s c).2.inLiteral = true := by
  simp only [stateESign, scanner.error, apply_ite Prod.snd, apply_ite ScanCode.inLiteral,
    inLiteral_cont, inLiteral_err, ite_self]

theorem stateE_code (s : scanner) (c : Nat) : (stateE s c).2.inLiteral = true := by
  simp only [stateE, stateESign, scanner.error, apply_ite Prod.snd, apply_ite ScanCode.inLiteral,
    inLiteral_cont, inLiteral_err, ite_self]

theorem stateLetter_code (x : Nat) (y : StepFn) (z : String) (s : scanner) (c : Nat) :
    (stateLetter x y z s c).2.inLiteral = true := by
  simp only [stateLetter, scanner.error, apply_ite Prod.snd, apply_ite ScanCode.inLiteral,
    inLiteral_cont, inLiteral_err, ite_self]

theorem class_interior (s : scanner) (c : Nat) (r : scanner × ScanCode)
    (hr : r.2.inLiteral = true) (h2 : r.2 ≠ scanError) (hao : s.step.afterOpen = false) :
    Classified s c r := by
  refine Or.inl ⟨?_, hao⟩
  revert hr h2
  cases r.2 <;> simp [ScanCode.inLiteral]

/-! ### The states in which a number may end -/

theorem endsNumber_cases (x : StepFn) (h : x.endsNumber = true) :
    x = StepFn.one ∨ x = StepFn.zero ∨ x = StepFn.dot0 ∨ x = StepFn.e0 := by
  cases x <;> simp [StepFn.endsNumber] at h ⊢

/-- A state in which a number may end either continues the number or hands the
byte to `stateEndValue`. -/
theorem endsNumber_step (s : scanner) (c : Nat) (hst : s.step.endsNumber = true) :
    (s.doStep c).2 = scanContinue ∨ s.doStep c = stateEndValue s c := by
  rcases endsNumber_cases _ hst with h | h | h | h <;> simp only [scanner.doStep, h]
  · unfold state1 state0
    by_cases h1 : isDigit c = true
    · simp [h1]
    · simp only [h1, if_false]
      by_cases h2 : c = 46
      · simp [h1, h2]
      · by_cases h3 : c = 101 ∨ c = 69
        · simp [h1, h2, h3]
        · simp [h1, h2, h3]
  · unfold state0
    by_cases h2 : c = 46
    · simp [h2]
    · by_cases h3 : c = 101 ∨ c = 69
      · simp [h2, h3]
      · simp [h2, h3]
  · unfold stateDot0
    by_cases h1 : isDigit c = true
    · simp [h1]
    · simp only [h1, if_false]
      by_cases h3 : c = 101 ∨ c = 69
      · simp [h1, h3]
      · simp [h1, h3]
  · unfold stateE0
    by_cases h1 : isDigit c = true
    · simp [h1]
    · simp [h1]

theorem endsNumber_step_of_ne (s : scanner) (c : Nat) (hst : s.step.endsNumber = true)
    (h : (s.doStep c).2 ≠ scanContinue) : s.doStep c = stateEndValue s c := by
  rcases endsNumber_step s c hst with h1 | h1
  · exact absurd h1 h
  · exact h1

/-- On space and on the four bytes that can follow a value, a state in which a
number may end hands over to `stateEndValue`. -/
theorem endsNumber_step_punct (s : scanner) (c : Nat) (hst : s.step.endsNumber = true)
    (hc : isSpace c = true ∨ c = 58 ∨ c = 44 ∨ c = 125 ∨ c = 93) :
    s.doStep c = stateEndValue s c := by
  have hc' : c = 32 ∨ c = 9 ∨ c = 13 ∨ c = 10 ∨ c = 58 ∨ c = 44 ∨ c = 125 ∨ c = 93 := by
    rcases hc with h | h
    · have := (isSpace_iff c).1 h
      omega
    · omega
  have hd : isDigit c = false := by
    rcases hc' with rfl | rfl | rfl | rfl | rfl | rfl | rfl | rfl <;> rfl
  have h46 : c ≠ 46 := by omega
  have he : ¬ (c = 101 ∨ c = 69) := by omega
  rcases endsNumber_cases _ hst with h | h | h | h <;> simp only [scanner.doStep, h]
  · simp [state1, state0, hd, h46, he]
  · simp [state0, h46, he]
  · simp [stateDot0, hd, he]
  · simp [stateE0, hd]

theorem endsNumber_not_afterOpen (x : StepFn) (h : x.endsNumber = true) : x.afterOpen = false := by
  cases x <;> simp [StepFn.endsNumber, StepFn.afterOpen] at h ⊢

/-- Every step that neither skips the byte nor fails ends in one of the ways
listed in `Classified`. -/
theorem doStep_class (s : scanner) (c : Nat) (hs : s.err = none) (hne : s.step ≠ StepFn.error)
    (h1 : (s.doStep c).2 ≠ scanSkipSpace) (h2 : (s.doStep c).2 ≠ scanError)
    (h3 : (s.doStep c).1.err = none) : Classified s c (s.doStep c) := by
  by_cases hnum : s.step.endsNumber = true
  · rcases endsNumber_step s c hnum with h | h
    · exact Or.inl ⟨h, endsNumber_not_afterOpen _ hnum⟩
    · rw [h] at h1 h2 h3 ⊢
      exact class_endValue_plain s c hs (Or.inr hnum) h1 h2 h3
  cases hst : s.step <;> simp only [scanner.doStep, hst] at h1 h2 h3 ⊢
  · -- stateBeginValueOrEmpty
    have hb : s.step.begins = true := by rw [hst]; rfl
    unfold stateBeginValueOrEmpty at h1 h2 h3 ⊢
    by_cases hsp : isSpace c = true
    · simp [hsp] at h1
    · rw [if_neg hsp] at h1 h2 h3 ⊢
      by_cases hc : c = 93
      · rw [if_pos hc] at h1 h2 h3 ⊢
        exact class_endValue_close s s c hs hb (Or.inr hc) h1 h2 h3
      · rw [if_neg hc] at h1 h2 h3 ⊢
        exact class_beginValue s c hb hsp h2
  · -- stateBeginValue
    have hb : s.step.begins = true := by rw [hst]; rfl
    by_cases hsp : isSpace c = true
    · simp [stateBeginValue, hsp] at h1
    · exact class_beginValue s c hb hsp h2
  · -- stateBeginStringOrEmpty
    have hb : s.step.begins = true := by rw [hst]; rfl
    unfold stateBeginStringOrEmpty at h1 h2 h3 ⊢
    by_cases hsp : isSpace c = true
    · simp [hsp] at h1
    · rw [if_neg hsp] at h1 h2 h3 ⊢
      by_cases hc : c = 125
      · rw [if_pos hc] at h1 h2 h3 ⊢
        exact class_endValue_close s _ c hs hb (Or.inl hc) h1 h2 h3
      · rw [if_neg hc] at h1 h2 h3 ⊢
        exact class_beginString s c hb hsp h2
  · -- stateBeginString
    have hb : s.step.begins = true := by rw [hst]; rfl
    by_cases hsp : isSpace c = true
    · simp [stateBeginString, hsp] at h1
    · exact class_beginString s c hb hsp h2
  · exact class_endValue_plain s c hs (Or.inl hst) h1 h2 h3
  · -- stateEndTop
    unfold stateEndTop at h1 h2 h3 ⊢
    by_cases hsp : isSpace c = true
    · simp only [hsp, Bool.not_true, Bool.false_eq_true, if_false]
      exact Or.inr (Or.inr (Or.inr (Or.inr (Or.inr (Or.inr (Or.inr (Or.inr
        ⟨rfl, hsp, isSpace_plain c hsp, by rw [hst]; rfl⟩)))))))
    · simp [hsp, scanner.error] at h3
  · exact class_interior s c _ (stateInString_code s c) h2 (by rw [hst]; rfl)
  · exact class_interior s c _ (stateInStringEsc_code s c) h2 (by rw [hst]; rfl)
  · exact class_interior s c _ (stateInStringEscHex_code _ s c) h2 (by rw [hst]; rfl)
  · exact class_interior s c _ (stateInStringEscHex_code _ s c) h2 (by rw [hst]; rfl)
  · exact class_interior s c _ (stateInStringEscHex_code _ s c) h2 (by rw [hst]; rfl)
  · exact class_interior s c _ (stateInStringEscHex_code _ s c) h2 (by rw [hst]; rfl)
  · exact class_interior s c _ (stateNeg_code s c) h2 (by rw [hst]; rfl)
  · exact absurd (by rw [hst]; rfl) hnum
  · exact absurd (by rw [hst]; rfl) hnum
  · exact class_interior s c _ (stateDot_code s c) h2 (by rw [hst]; rfl)
  · exact absurd (by rw [hst]; rfl) hnum
  · exact class_interior s c _ (stateE_code s c) h2 (by rw [hst]; rfl)
  · exact class_interior s c _ (stateESign_code s c) h2 (by rw [hst]; rfl)
  · exact absurd (by rw [hst]; rfl) hnum
  · exact class_interior s c _ (stateLetter_code _ _ _ s c) h2 (by rw [hst]; rfl)
  · exact class_interior s c _ (stateLetter_code _ _ _ s c) h2 (by rw [hst]; rfl)
  · exact class_interior s c _ (stateLetter_code _ _ _ s c) h2 (by rw [hst]; rfl)
  · exact class_interior s c _ (stateLetter_code _ _ _ s c) h2 (by rw [hst]; rfl)
  · exact class_interior s c _ (stateLetter_code _ _ _ s c) h2 (by rw [hst]; rfl)
  · exact class_interior s c _ (stateLetter_code _ _ _ s c) h2 (by rw [hst]; rfl)
  · exact class_interior s c _ (stateLetter_code _ _ _ s c) h2 (by rw [hst]; rfl)
  · exact class_interior s c _ (stateLetter_code _ _ _ s c) h2 (by rw [hst]; rfl)
  · exact class_interior s c _ (stateLetter_code _ _ _ s c) h2 (by rw [hst]; rfl)
  · exact class_interior s c _ (stateLetter_code _ _ _ s c) h2 (by rw [hst]; rfl)
  · exact absurd hst hne

/-- A recorded error stays recorded. -/
theorem doStep_err_some (s : scanner) (c : Nat) (h : s.err.isSome = true) :
    (s.doStep c).1.err.isSome = true := by
  rcases s with ⟨step, endTop, ps, err, b⟩
  simp only at h
  rcases ps with _ | ⟨p, ps⟩ <;> (try cases p) <;> cases step <;>
    simp only [scanner.doStep, stateBeginValueOrEmpty, stateBeginValue, stateBeginStringOrEmpty,
      stateBeginString, stateEndValue, stateEndTop, stateInString, stateInStringEsc,
      stateInStringEscHex, stateNeg, state1, state0, stateDot, stateDot0, stateE, stateESign,
      stateE0, stateLetter, stateError, scanner.error, scanner.pushParseState,
      scanner.popParseState, setTop, apply_ite Prod.fst, apply_ite scanner.err,
      apply_ite Option.isSome, h, Option.isSome_some, ite_self]

theorem popParseState_step_bne (s : scanner) :
    (s.popParseState.step != StepFn.error) = true := by
  have h : s.popParseState.step = StepFn.endTop ∨ s.popParseState.step = StepFn.endValue := by
    unfold scanner.popParseState
    dsimp only
    by_cases h : s.parseState.tail.length = 0
    · left; rw [if_pos h]
    · right; rw [if_neg h]
  rcases h with h | h <;> rw [h] <;> rfl

/-- From a state other than `stateError`, every step result is coherent. -/
theorem doStep_coherent (s : scanner) (c : Nat) (h : s.step ≠ StepFn.error) :
    coherent (s.doStep c) = true := by
  rcases s with ⟨step, endTop, ps, err, b⟩
  simp only at h
  rcases ps with _ | ⟨p, ps⟩ <;> (try cases p) <;> cases step <;>
    first
    | exact absurd rfl h
    | (simp only [scanner.doStep, stateBeginValueOrEmpty, stateBeginValue, stateBeginStringOrEmpty,
        stateBeginString, stateEndValue, stateEndTop, stateInString, stateInStringEsc,
        stateInStringEscHex, stateNeg, state1, state0, stateDot, stateDot0, stateE, stateESign,
        stateE0, stateLetter, stateError, scanner.error, scanner.pushParseState,
        setTop, apply_ite coherent]
       simp only [coherent, Option.isSome_some, popParseState_step_bne,
        Bool.or_true, Bool.and_true, Bool.and_self, ite_self, bne_self_eq_false, Bool.false_or,
        (by decide : (scanContinue != scanError) = true),
        (by decide : (scanBeginLiteral != scanError) = true),
        (by decide : (scanBeginObject != scanError) = true),
        (by decide : (scanObjectKey != scanError) = true),
        (by decide : (scanObjectValue != scanError) = true),
        (by decide : (scanEndObject != scanError) = true),
        (by decide : (scanBeginArray != scanError) = true),
        (by decide : (scanArrayValue != scanError) = true),
        (by decide : (scanEndArray != scanError) = true),
        (by decide : (scanSkipSpace != scanError) = true),
        (by decide : (scanEnd != scanError) = true), Bool.true_or, Bool.true_and,
        List.tail_cons, List.length_nil, List.length_cons, if_true,
        (by decide : (StepFn.beginValueOrEmpty != StepFn.error) = true),
        (by decide : (StepFn.beginValue != StepFn.error) = true),
        (by decide : (StepFn.beginStringOrEmpty != StepFn.error) = true),
        (by decide : (StepFn.beginString != StepFn.error) = true),
        (by decide : (StepFn.endValue != StepFn.error) = true),
        (by decide : (StepFn.endTop != StepFn.error) = true),
        (by decide : (StepFn.inString != StepFn.error) = true),
        (by decide : (StepFn.inStringEsc != StepFn.error) = true),
        (by decide : (StepFn.inStringEscU != StepFn.error) = true),
        (by decide : (StepFn.inStringEscU1 != StepFn.error) = true),
        (by decide : (StepFn.inStringEscU12 != StepFn.error) = true),
        (by decide : (StepFn.inStringEscU123 != StepFn.error) = true),
        (by decide : (StepFn.neg != StepFn.error) = true),
        (by decide : (StepFn.one != StepFn.error) = true),
        (by decide : (StepFn.zero != StepFn.error) = true),
        (by decide : (StepFn.dot != StepFn.error) = true),
        (by decide : (StepFn.dot0 != StepFn.error) = true),
        (by decide : (StepFn.e != StepFn.error) = true),
        (by decide : (StepFn.eSign != StepFn.error) = true),
        (by decide : (StepFn.e0 != StepFn.error) = true),
        (by decide : (StepFn.t != StepFn.error) = true),
        (by decide : (StepFn.tr != StepFn.error) = true),
        (by decide : (StepFn.tru != StepFn.error) = true),
        (by decide : (StepFn.f != StepFn.error) = true),
        (by decide : (StepFn.fa != StepFn.error) = true),
        (by decide : (StepFn.fal != StepFn.error) = true),
        (by decide : (StepFn.fals != StepFn.error) = true),
        (by decide : (StepFn.n != StepFn.error) = true),
        (by decide : (StepFn.nu != StepFn.error) = true),
        (by decide : (StepFn.nul != StepFn.error) = true)])

/-- The code of a step, and the state, flag, stack and error status it leads
to, depend only on the state, flag, stack and error status before. -/
theorem doStep_core (s1 s2 : scanner) (c : Nat) (h : s1.core = s2.core) :
    (s1.doStep c).1.core = (s2.doStep c).1.core ∧ (s1.doStep c).2 = (s2.doStep c).2 := by
  rw [core_eq_iff] at h ⊢
  rcases s1 with ⟨step, endTop, ps, err1, b1⟩
  rcases s2 with ⟨step2, endTop2, ps2, err2, b2⟩
  obtain ⟨h1, h2, h3, h4⟩ := h
  simp only at h1 h2 h3 h4
  subst h1 h2 h3
  rcases ps with _ | ⟨p, ps⟩ <;> (try cases p) <;> cases step <;>
    simp only [scanner.doStep, stateBeginValueOrEmpty, stateBeginValue, stateBeginStringOrEmpty,
      stateBeginString, stateEndValue, stateEndTop, stateInString, stateInStringEsc,
      stateInStringEscHex, stateNeg, state1, state0, stateDot, stateDot0, stateE, stateESign,
      stateE0, stateLetter, stateError, scanner.error, scanner.pushParseState,
      scanner.popParseState, setTop, apply_ite Prod.fst, apply_ite Prod.snd,
      apply_ite scanner.step, apply_ite scanner.endTop, apply_ite scanner.parseState,
      apply_ite scanner.err, apply_ite Option.isSome, h4, Option.isSome_some, and_self]

theorem doStep_err_none (s : scanner) (c : Nat) (h : (s.doStep c).1.err = none) :
    s.err = none := by
  by_contra hne
  have h1 : s.err.isSome = true := by
    cases hs : s.err with
    | none => exact absurd hs hne
    | some e => rfl
  have h2 := doStep_err_some s c h1
  rw [h] at h2
  exact absurd h2 (by simp)

theorem doStep_error_err (s : scanner) (c : Nat) (hne : s.step ≠ StepFn.error)
    (h : (s.doStep c).2 = scanError) : (s.doStep c).1.err ≠ none := by
  have hc := doStep_coherent s c hne
  intro he
  simp [coherent, h, he] at hc

theorem doStep_step_ne (s : scanner) (c : Nat) (hne : s.step ≠ StepFn.error)
    (h : (s.doStep c).1.err = none) : (s.doStep c).1.step ≠ StepFn.error := by
  have hc := doStep_coherent s c hne
  intro he
  simp [coherent, h, he] at hc

/-! ### Related scanners step alike -/

theorem doStep_endValue (s : scanner) (c : Nat) (h : s.step = StepFn.endValue) :
    s.doStep c = stateEndValue s c := by
  simp only [scanner.doStep, h]

theorem doStep_after_value (s : scanner) (c : Nat)
    (hst : s.step = StepFn.endValue ∨ s.step.endsNumber = true)
    (hc : isSpace c = true ∨ c = 58 ∨ c = 44 ∨ c = 125 ∨ c = 93) :
    s.doStep c = stateEndValue s c := by
  rcases hst with h | h
  · exact doStep_endValue s c h
  · exact endsNumber_step_punct s c h hc

theorem begins_cases (x : StepFn) (h : x.begins = true) :
    x = StepFn.beginValueOrEmpty ∨ x = StepFn.beginValue ∨ x = StepFn.beginStringOrEmpty
      ∨ x = StepFn.beginString := by
  cases x <;> simp [StepFn.begins] at h ⊢

theorem doStep_begins_space (s : scanner) (w : Nat) (hb : s.step.begins = true)
    (hw : isSpace w = true) : s.doStep w = (s, scanSkipSpace) := by
  rcases begins_cases _ hb with h | h | h | h <;>
    simp [scanner.doStep, h, stateBeginValueOrEmpty, stateBeginValue,
      stateBeginStringOrEmpty, stateBeginString, hw]

theorem ScanRel.toW {s1 s2 : scanner} (h : ScanRel s1 s2) : ScanRelW s1 s2 := by
  obtain ⟨a, b, c, d, e, f⟩ := h
  refine ⟨a, b, c, d, e, ?_⟩
  rcases f with f | f
  · exact Or.inl f
  · exact Or.inr (Or.inl f)

theorem ScanRel.of_core {s1 s2 : scanner} (h : s1.core = s2.core) (he : s1.err = none)
    (hne : s1.step ≠ StepFn.error) : ScanRel s1 s2 := by
  rw [core_eq_iff] at h
  obtain ⟨a, b, c, d⟩ := h
  refine ⟨c, b, he, ?_, hne, Or.inl a⟩
  rw [he] at d
  cases h2 : s2.err with
  | none => rfl
  | some e => rw [h2] at d; simp at d

theorem ScanRelW.of_begins {s1 s2 : scanner} (h : ScanRelW s1 s2) (hb : s1.step.begins = true) :
    ScanRel s1 s2 := by
  obtain ⟨a, b, c, d, e, f⟩ := h
  refine ⟨a, b, c, d, e, ?_⟩
  rcases f with f | f | f
  · exact Or.inl f
  · exact Or.inr f
  · exfalso
    rcases f.1 with g | g
    · rw [g] at hb; simp [StepFn.begins] at hb
    · revert hb g; cases s1.step <;> simp [StepFn.begins, StepFn.endsNumber]

/-- Scanners related by `ScanRelW` step alike on space and on the four bytes
that can follow a value. -/
theorem doStep_sim_punct (s1 s2 : scanner) (c : Nat) (hR : ScanRelW s1 s2)
    (hc : isSpace c = true ∨ c = 58 ∨ c = 44 ∨ c = 125 ∨ c = 93) :
    (s1.doStep c).1.core = (s2.doStep c).1.core ∧ (s1.doStep c).2 = (s2.doStep c).2 := by
  obtain ⟨hps, het, he1, he2, hne, hstep⟩ := hR
  have key : ∀ t1 t2 : scanner, t1.parseState = t2.parseState → t1.endTop = t2.endTop →
      t1.err = none → t2.err = none →
      (stateEndValue t1 c).1.core = (stateEndValue t2 c).1.core
        ∧ (stateEndValue t1 c).2 = (stateEndValue t2 c).2 := by
    intro t1 t2 a b e1 e2
    have h := doStep_core { t1 with step := StepFn.endValue } { t2 with step := StepFn.endValue } c
      (by simp [scanner.core, a, b, e1, e2])
    rw [doStep_endValue _ _ rfl, doStep_endValue _ _ rfl, stateEndValue_step, stateEndValue_step] at h
    exact h
  rcases hstep with h | h | h
  · exact doStep_core s1 s2 c (by simp [scanner.core, hps, het, he1, he2, h])
  · rw [doStep_after_value s1 c (Or.inl h.1) hc, doStep_after_value s2 c (Or.inr h.2) hc]
    exact key s1 s2 hps het he1 he2
  · rw [doStep_after_value s1 c h.1 hc, doStep_after_value s2 c (Or.inl h.2) hc]
    exact key s1 s2 hps het he1 he2

/-- Scanners related by `ScanRelW` step alike whenever the first one neither
skips the byte nor fails nor is inside a literal. -/
theorem doStep_sim (s1 s2 : scanner) (c : Nat) (hR : ScanRelW s1 s2)
    (h1 : (s1.doStep c).2 ≠ scanSkipSpace) (h2 : (s1.doStep c).2 ≠ scanError)
    (h3 : (s1.doStep c).1.err = none) (h4 : (s1.doStep c).2 ≠ scanContinue) :
    (s2.doStep c).2 = (s1.doStep c).2 ∧ ScanRel (s1.doStep c).1 (s2.doStep c).1 := by
  have hR' := hR
  obtain ⟨hps, het, he1, he2, hne, hstep⟩ := hR
  have fin : (s1.doStep c).1.core = (s2.doStep c).1.core ∧ (s1.doStep c).2 = (s2.doStep c).2 →
      (s2.doStep c).2 = (s1.doStep c).2 ∧ ScanRel (s1.doStep c).1 (s2.doStep c).1 :=
    fun h => ⟨h.2.symm, ScanRel.of_core h.1 h3 (doStep_step_ne s1 c hne h3)⟩
  by_cases hA : s1.step = s2.step
  · exact fin (doStep_core s1 s2 c (by simp [scanner.core, hps, het, he1, he2, hA]))
  · have hst1 : s1.step = StepFn.endValue ∨ s1.step.endsNumber = true := by
      rcases hstep with h | h | h
      · exact absurd h hA
      · exact Or.inl h.1
      · exact h.1
    have hE : s1.doStep c = stateEndValue s1 c := by
      rcases hst1 with h | h
      · exact doStep_endValue s1 c h
      · exact endsNumber_step_of_ne s1 c h h4
    rw [hE] at h1 h2 h3
    have hc : isSpace c = true ∨ c = 58 ∨ c = 44 ∨ c = 125 ∨ c = 93 := by
      rcases stateEndValue_class s1 c he1 h1 h2 h3 with h | h | h | h | h
      · exact Or.inr (Or.inl h.1)
      · exact Or.inr (Or.inr (Or.inl h.1))
      · exact Or.inr (Or.inr (Or.inr (Or.inl h.1)))
      · exact Or.inr (Or.inr (Or.inr (Or.inr h.1)))
      · exact Or.inl h.2
    exact fin (doStep_sim_punct s1 s2 c hR' hc)

/-- Related scanners step alike inside a literal. -/
theorem doStep_sim_cont (s1 s2 : scanner) (c : Nat) (hR : ScanRel s1 s2)
    (h3 : (s1.doStep c).1.err = none) (h4 : (s1.doStep c).2 = scanContinue) :
    (s2.doStep c).2 = scanContinue ∧ ScanRel (s1.doStep c).1 (s2.doStep c).1 := by
  obtain ⟨hps, het, he1, he2, hne, hstep⟩ := hR
  rcases hstep with h | h
  · have hc := doStep_core s1 s2 c (by simp [scanner.core, hps, het, he1, he2, h])
    exact ⟨by rw [← hc.2, h4], ScanRel.of_core hc.1 h3 (doStep_step_ne s1 c hne h3)⟩
  · rw [doStep_endValue s1 c h.1] at h4
    exact absurd h4 (stateEndValue_ne_continue s1 c)

/-- A scanner related to one that skips space skips space too. -/
theorem doStep_space (s1 s2 : scanner) (w : Nat) (hR : ScanRelW s1 s2) (hsk : skips s1)
    (hw : isSpace w = true) :
    (s2.doStep w).2 = scanSkipSpace ∧ ScanRelW s1 (s2.doStep w).1 := by
  have hR' := hR
  obtain ⟨hps, het, he1, he2, hne, hstep⟩ := hR
  rcases hsk with hb | ⟨hst1, hne1⟩
  · have hs2 : s2.step = s1.step := by
      have := (ScanRelW.of_begins hR' hb).2.2.2.2.2
      rcases this with h | h
      · exact h.symm
      · rw [h.1] at hb; simp [StepFn.begins] at hb
    have hres : s2.doStep w = (s2, scanSkipSpace) := by
      rw [← hs2] at hb
      exact doStep_begins_space s2 w hb hw
    rw [hres]
    exact ⟨rfl, hR'⟩
  · have hst2 : s2.step = StepFn.endValue ∨ s2.step.endsNumber = true := by
      rcases hstep with h | h | h
      · rw [← h]; exact hst1
      · exact Or.inr h.2
      · exact Or.inl h.2
    rw [doStep_after_value s2 w hst2 (Or.inl hw),
      stateEndValue_space s2 w hw (by rw [← hps]; exact hne1)]
    exact ⟨rfl, hps, het, he1, he2, hne, Or.inr (Or.inr ⟨hst1, rfl⟩)⟩

/-! ### Skipped space -/

theorem stateEndValue_skip (s : scanner) (c : Nat) (h : (stateEndValue s c).2 = scanSkipSpace) :
    isSpace c = true ∧ s.parseState ≠ [] := by
  rcases s with ⟨step, endTop, ps, err, b⟩
  rcases ps with _ | ⟨p, ps⟩
  · simp only [stateEndValue, stateEndTop] at h
    by_cases hsp : isSpace c = true <;> simp [hsp] at h
  · simp only [stateEndValue] at h
    by_cases hsp : isSpace c = true
    · exact ⟨hsp, by simp⟩
    · simp only [hsp, if_false] at h
      cases p
      · by_cases h1 : c = 58 <;> simp [h1, scanner.error] at h
      · by_cases h1 : c = 44
        · simp [h1] at h
        · by_cases h2 : c = 125 <;> simp [h1, h2, scanner.error] at h
      · by_cases h1 : c = 44
        · simp [h1] at h
        · by_cases h2 : c = 93 <;> simp [h1, h2, scanner.error] at h

theorem inLiteral_ne_skip (v : ScanCode) (h : v.inLiteral = true) : v ≠ scanSkipSpace := by
  cases v <;> simp [ScanCode.inLiteral] at h ⊢

theorem stateBeginValue_skip (s : scanner) (c : Nat)
    (h : (stateBeginValue s c).2 = scanSkipSpace) : isSpace c = true := by
  by_contra hsp
  by_cases herr : (stateBeginValue s c).2 = scanError
  · rw [herr] at h; exact absurd h (by decide)
  · rcases stateBeginValue_class s c hsp herr with h1 | h1 | h1
    · rw [h1.1] at h; exact absurd h (by decide)
    · rw [h1.2.1] at h; exact absurd h (by decide)
    · rw [h1.2.1] at h; exact absurd h (by decide)

theorem stateBeginString_skip (s : scanner) (c : Nat)
    (h : (stateBeginString s c).2 = scanSkipSpace) : isSpace c = true := by
  by_contra hsp
  unfold stateBeginString at h
  rw [if_neg hsp] at h
  by_cases hc : c = 34
  · rw [if_pos hc] at h; simp at h
  · rw [if_neg hc] at h; simp [scanner.error] at h

/-- A step skips the byte only if the byte is space, and then either the state
is one that begins a value, and nothing changes, or it comes after a value
inside an object or array, and the state becomes `stateEndValue`. -/
theorem doStep_skip_shape (s : scanner) (c : Nat) (hv : (s.doStep c).2 = scanSkipSpace) :
    (s.step.begins = true ∧ s.doStep c = (s, scanSkipSpace))
      ∨ ((s.step = StepFn.endValue ∨ s.step.endsNumber = true) ∧ s.parseState ≠ []
        ∧ s.doStep c = ({ s with step := StepFn.endValue }, scanSkipSpace)) := by
  by_cases hnum : s.step.endsNumber = true
  · rcases endsNumber_step s c hnum with h | h
    · rw [h] at hv; exact absurd hv (by decide)
    · rw [h] at hv ⊢
      obtain ⟨hsp, hps⟩ := stateEndValue_skip s c hv
      exact Or.inr ⟨Or.inr hnum, hps, stateEndValue_space s c hsp hps⟩
  by_cases hb : s.step.begins = true
  · have hsp : isSpace c = true := by
      rcases begins_cases _ hb with h | h | h | h <;> simp only [scanner.doStep, h] at hv
      · unfold stateBeginValueOrEmpty at hv
        by_contra hsp
        rw [if_neg hsp] at hv
        by_cases hc : c = 93
        · rw [if_pos hc] at hv
          exact hsp (stateEndValue_skip s c hv).1
        · rw [if_neg hc] at hv
          exact hsp (stateBeginValue_skip s c hv)
      · exact stateBeginValue_skip s c hv
      · unfold stateBeginStringOrEmpty at hv
        by_contra hsp
        rw [if_neg hsp] at hv
        by_cases hc : c = 125
        · rw [if_pos hc] at hv
          exact hsp (stateEndValue_skip _ c hv).1
        · rw [if_neg hc] at hv
          exact hsp (stateBeginString_skip s c hv)
      · exact stateBeginString_skip s c hv
    exact Or.inl ⟨hb, doStep_begins_space s c hb hsp⟩
  by_cases hev : s.step = StepFn.endValue
  · rw [doStep_endValue s c hev] at hv ⊢
    obtain ⟨hsp, hps⟩ := stateEndValue_skip s c hv
    exact Or.inr ⟨Or.inl hev, hps, stateEndValue_space s c hsp hps⟩
  exfalso
  cases hst : s.step <;> simp only [scanner.doStep, hst] at hv <;>
    first
    | exact absurd hst hev
    | exact absurd (by rw [hst]; rfl) hb
    | exact absurd (by rw [hst]; rfl) hnum
    | exact inLiteral_ne_skip _ (stateInString_code s c) hv
    | exact inLiteral_ne_skip _ (stateInStringEsc_code s c) hv
    | exact inLiteral_ne_skip _ (stateInStringEscHex_code _ s c) hv
    | exact inLiteral_ne_skip _ (stateNeg_code s c) hv
    | exact inLiteral_ne_skip _ (stateDot_code s c) hv
    | exact inLiteral_ne_skip _ (stateE_code s c) hv
    | exact inLiteral_ne_skip _ (stateESign_code s c) hv
    | exact inLiteral_ne_skip _ (stateLetter_code _ _ _ s c) hv
    | skip
  · unfold stateEndTop at hv
    by_cases hsp : isSpace c = true <;> simp [hsp] at hv
  · simp [stateError] at hv

/-- When the first of two related scanners skips a byte, the scanners stay
related, and so does being right behind an opening bracket. -/
theorem doStep_skip_rel (s1 s2 : scanner) (c : Nat) (hR : ScanRel s1 s2)
    (hv : (s1.doStep c).2 = scanSkipSpace) :
    ScanRel (s1.doStep c).1 s2 ∧ (s1.doStep c).1.step.afterOpen = s1.step.afterOpen := by
  obtain ⟨hps, het, he1, he2, hne, hstep⟩ := hR
  rcases doStep_skip_shape s1 c hv with ⟨_, h⟩ | ⟨hst, _, h⟩
  · rw [h]
    exact ⟨⟨hps, het, he1, he2, hne, hstep⟩, rfl⟩
  · rw [h]
    refine ⟨⟨hps, het, he1, he2, by simp, ?_⟩, ?_⟩
    · rcases hstep with g | g
      · rcases hst with k | k
        · left; rw [← g, k]
        · right; exact ⟨rfl, by rw [← g]; exact k⟩
      · right; exact ⟨rfl, g.2⟩
    · rcases hst with k | k
      · rw [k]
      · rw [endsNumber_not_afterOpen _ k]; rfl

/-! ### The end of the input -/

theorem eof_sim (s1 s2 : scanner) (hR : ScanRel s1 s2) (h : s1.eof.2 ≠ scanError) :
    s2.eof.2 ≠ scanError ∧ s2.eof.2 = s1.eof.2 := by
  have hW := hR.toW
  obtain ⟨hps, het, he1, he2, hne, hstep⟩ := hR
  have hc := doStep_sim_punct s1 s2 32 hW (Or.inl rfl)
  rw [core_eq_iff] at hc
  have het2 : (s1.doStep 32).1.endTop = (s2.doStep 32).1.endTop := hc.1.2.1
  unfold scanner.eof at h ⊢
  simp only [he1, he2, Option.isSome_none, Bool.false_eq_true, if_false] at h ⊢
  rw [← het]
  by_cases ht : s1.endTop = true
  · simp [ht]
  · simp only [ht, if_false] at h ⊢
    rw [← het2]
    by_cases ht2 : (s1.doStep 32).1.endTop = true
    · simp [ht2]
    · simp only [ht2, if_false] at h
      exfalso
      revert h
      by_cases h5 : (s1.doStep 32).1.err.isNone = true <;> simp [h5]

/-! ### One round of the indenter -/

theorem indentLoop_cons_raw (pre indent : Bytes) (st : IndentState) (c : Nat) (rest : Bytes) :
    indentLoop pre indent st (c :: rest) =
      if ({ st.scan with bytes := st.scan.bytes + 1 }.doStep c).2 = scanSkipSpace then
        indentLoop pre indent
          { st with scan := ({ st.scan with bytes := st.scan.bytes + 1 }.doStep c).1 } rest
      else if ({ st.scan with bytes := st.scan.bytes + 1 }.doStep c).2 = scanError then
        { st with scan := ({ st.scan with bytes := st.scan.bytes + 1 }.doStep c).1 }
      else
        indentLoop pre indent
          (emitStep pre indent
            { st with scan := ({ st.scan with bytes := st.scan.bytes + 1 }.doStep c).1 } c
            ({ st.scan with bytes := st.scan.bytes + 1 }.doStep c).2) rest := by
  rw [indentLoop]
  dsimp only
  by_cases h1 : ({ st.scan with bytes := st.scan.bytes + 1 }.doStep c).2 = scanSkipSpace
  · rw [if_pos h1, if_pos h1]
  rw [if_neg h1, if_neg h1]
  by_cases h2 : ({ st.scan with bytes := st.scan.bytes + 1 }.doStep c).2 = scanError
  · rw [if_pos h2, if_pos h2]
  rw [if_neg h2, if_neg h2]
  unfold emitStep
  dsimp only
  by_cases h3 : ({ st.scan with bytes := st.scan.bytes + 1 }.doStep c).2 = scanContinue
  · rw [if_pos h3, if_pos h3]
  rw [if_neg h3, if_neg h3]
  by_cases h4 : c = 123 ∨ c = 91
  · rw [if_pos h4, if_pos h4]
  rw [if_neg h4, if_neg h4]
  by_cases h5 : c = 44
  · rw [if_pos h5, if_pos h5]
  rw [if_neg h5, if_neg h5]
  by_cases h6 : c = 58
  · rw [if_pos h6, if_pos h6]
  rw [if_neg h6, if_neg h6]
  by_cases h7 : c = 125 ∨ c = 93
  · rw [if_pos h7, if_pos h7]
  rw [if_neg h7, if_neg h7]

/-- One round of the loop of `appendIndent`, in terms of `emitStep`. -/
theorem indentLoop_cons (pre indent : Bytes) (st : IndentState) (c : Nat) (rest : Bytes) :
    indentLoop pre indent st (c :: rest) =
      if (st.scan.bump.doStep c).2 = scanSkipSpace then
        indentLoop pre indent (st.withScan (st.scan.bump.doStep c).1) rest
      else if (st.scan.bump.doStep c).2 = scanError then
        st.withScan (st.scan.bump.doStep c).1
      else
        indentLoop pre indent
          (emitStep pre indent (st.withScan (st.scan.bump.doStep c).1) c
            (st.scan.bump.doStep c).2) rest :=
  indentLoop_cons_raw pre indent st c rest

theorem ScanRelW.bumpRight {s1 s2 : scanner} (h : ScanRelW s1 s2) : ScanRelW s1 s2.bump := h

theorem ScanRelW.bumpLeft {s1 s2 : scanner} (h : ScanRelW s1 s2) : ScanRelW s1.bump s2 := h

theorem ScanRel.bumpFirst {s1 s2 : scanner} (h : ScanRel s1 s2) : ScanRel s1.bump s2 := h

theorem appendNewline_eq (dst pre indent : Bytes) (d : Int) :
    appendNewline dst pre indent d = dst ++ appendNewline [] pre indent d := by
  simp [appendNewline]

theorem appendNewline_spaces (pre indent : Bytes) (hpre : ∀ b ∈ pre, isSpace b = true)
    (hind : ∀ b ∈ indent, isSpace b = true) (d : Int) :
    ∀ b ∈ appendNewline [] pre indent d, isSpace b = true := by
  intro b hb
  simp only [appendNewline, List.nil_append, List.mem_append, List.mem_singleton,
    List.mem_flatten, List.mem_replicate] at hb
  rcases hb with (rfl | hb) | ⟨l, ⟨_, rfl⟩, hb⟩
  · rfl
  · exact hpre b hb
  · exact hind b hb

/-- The second run skips a stretch of space the first run has written. -/
theorem indentLoop_spaces (pre indent : Bytes) (ws : Bytes) (hws : ∀ b ∈ ws, isSpace b = true)
    (s1 : scanner) (hsk : ws ≠ [] → skips s1) :
    ∀ st2 : IndentState, ScanRelW s1 st2.scan →
      ∃ st2' : IndentState,
        (∀ rest, indentLoop pre indent st2 (ws ++ rest) = indentLoop pre indent st2' rest)
          ∧ st2'.dst = st2.dst ∧ st2'.needIndent = st2.needIndent ∧ st2'.depth = st2.depth
          ∧ ScanRelW s1 st2'.scan := by
  induction ws with
  | nil => intro st2 hR; exact ⟨st2, fun _ => rfl, rfl, rfl, rfl, hR⟩
  | cons w ws ih =>
    intro st2 hR
    have hw : isSpace w = true := hws w (List.mem_cons_self _ _)
    have hskip := hsk (List.cons_ne_nil _ _)
    have hstep := doStep_space s1 st2.scan.bump w hR.bumpRight hskip hw
    obtain ⟨st2', hrun, hd, hn, hdep, hrel⟩ :=
      ih (fun b hb => hws b (List.mem_cons_of_mem _ hb)) (fun _ => hskip)
        (st2.withScan (st2.scan.bump.doStep w).1) hstep.2
    refine ⟨st2', ?_, hd, hn, hdep, hrel⟩
    intro rest
    rw [List.cons_append, indentLoop_cons, if_pos hstep.1]
    exact hrun rest

/-- The second run follows one round of the first, given what that round
writes: space `ws`, the byte, space `ws2`. -/
theorem indent_sim_generic (pre indent : Bytes) (st1 st2 : IndentState) (c : Nat)
    (ws ws2 : Bytes) (ni : Bool) (d : Int)
    (hR : IndentRel st1 st2)
    (h1 : (st1.scan.bump.doStep c).2 ≠ scanSkipSpace)
    (h2 : (st1.scan.bump.doStep c).2 ≠ scanError)
    (h3 : (st1.scan.bump.doStep c).1.err = none)
    (h4 : (st1.scan.bump.doStep c).2 ≠ scanContinue)
    (hws : ∀ b ∈ ws, isSpace b = true) (hws2 : ∀ b ∈ ws2, isSpace b = true)
    (hsk : ws ≠ [] → skips st1.scan.bump)
    (hsk2 : ws2 ≠ [] → (st1.scan.bump.doStep c).1.step.begins = true)
    (hemit : ∀ st : IndentState, st.needIndent = st1.needIndent → st.depth = st1.depth →
      emitStep pre indent st c (st1.scan.bump.doStep c).2
        = { st with dst := st.dst ++ ws ++ [c] ++ ws2, needIndent := ni, depth := d })
    (hinv : ni = true → (st1.scan.bump.doStep c).1.step.afterOpen = true) :
    ∃ (e : Bytes) (st2' : IndentState),
      (emitStep pre indent (st1.withScan (st1.scan.bump.doStep c).1) c
          (st1.scan.bump.doStep c).2).dst = st1.dst ++ e
        ∧ (∀ rest, indentLoop pre indent st2 (e ++ rest) = indentLoop pre indent st2' rest)
        ∧ IndentRel (emitStep pre indent (st1.withScan (st1.scan.bump.doStep c).1) c
            (st1.scan.bump.doStep c).2) st2' := by
  obtain ⟨hdst, hni, hdep, hscan, hinv0⟩ := hR
  obtain ⟨st2w, hrunw, hdw, hnw, hdepw, hrelw⟩ :=
    indentLoop_spaces pre indent ws hws st1.scan.bump hsk st2 hscan.toW.bumpLeft
  have hsim := doStep_sim st1.scan.bump st2w.scan.bump c hrelw.bumpRight h1 h2 h3 h4
  have hrunc : ∀ rest, indentLoop pre indent st2w (c :: rest)
      = indentLoop pre indent
          (emitStep pre indent (st2w.withScan (st2w.scan.bump.doStep c).1) c
            (st1.scan.bump.doStep c).2) rest := by
    intro rest
    rw [indentLoop_cons, if_neg (by rw [hsim.1]; exact h1), if_neg (by rw [hsim.1]; exact h2),
      hsim.1]
  have hsecond := hemit (st2w.withScan (st2w.scan.bump.doStep c).1)
    (by simp [IndentState.withScan, hnw, hni]) (by simp [IndentState.withScan, hdepw, hdep])
  have hfirst := hemit (st1.withScan (st1.scan.bump.doStep c).1) rfl rfl
  by_cases hnil : ws2 = []
  · subst hnil
    refine ⟨ws ++ [c], emitStep pre indent (st2w.withScan (st2w.scan.bump.doStep c).1) c
      (st1.scan.bump.doStep c).2, ?_, ?_, ?_⟩
    · rw [hfirst]; simp [IndentState.withScan]
    · intro rest
      rw [List.append_assoc, hrunw, List.singleton_append, hrunc]
    · rw [hfirst, hsecond]
      exact ⟨by simp [IndentState.withScan, hdw, hdst], rfl, rfl, hsim.2, hinv⟩
  · have hb := hsk2 hnil
    obtain ⟨st2', hrun2, hd2, hn2, hdep2, hrel2⟩ :=
      indentLoop_spaces pre indent ws2 hws2 (st1.scan.bump.doStep c).1 (fun _ => Or.inl hb)
        (emitStep pre indent (st2w.withScan (st2w.scan.bump.doStep c).1) c
          (st1.scan.bump.doStep c).2)
        (by rw [hsecond]; exact hsim.2.toW)
    refine ⟨ws ++ [c] ++ ws2, st2', ?_, ?_, ?_⟩
    · rw [hfirst]; simp [IndentState.withScan]
    · intro rest
      rw [List.append_assoc, List.append_assoc, hrunw, List.singleton_append, hrunc, hrun2]
    · rw [hfirst]
      rw [hsecond] at hd2 hn2 hdep2
      exact ⟨by simp [IndentState.withScan, hd2, hdw, hdst], by simp [hn2], by simp [hdep2],
        ScanRelW.of_begins hrel2 hb, hinv⟩

theorem emitStep_continue (pre indent : Bytes) (st : IndentState) (c : Nat)
    (h : st.needIndent = false) :
    emitStep pre indent st c scanContinue = { st with dst := st.dst ++ [c] } := by
  simp [emitStep, h]

/-- The second run follows any round of the first that neither skips the byte
nor fails. -/
theorem indent_step_sim (pre indent : Bytes) (hpre : ∀ b ∈ pre, isSpace b = true)
    (hind : ∀ b ∈ indent, isSpace b = true) (st1 st2 : IndentState) (c : Nat)
    (hR : IndentRel st1 st2)
    (h1 : (st1.scan.bump.doStep c).2 ≠ scanSkipSpace)
    (h2 : (st1.scan.bump.doStep c).2 ≠ scanError)
    (h3 : (st1.scan.bump.doStep c).1.err = none) :
    ∃ (e : Bytes) (st2' : IndentState),
      (emitStep pre indent (st1.withScan (st1.scan.bump.doStep c).1) c
          (st1.scan.bump.doStep c).2).dst = st1.dst ++ e
        ∧ (∀ rest, indentLoop pre indent st2 (e ++ rest) = indentLoop pre indent st2' rest)
        ∧ IndentRel (emitStep pre indent (st1.withScan (st1.scan.bump.doStep c).1) c
            (st1.scan.bump.doStep c).2) st2' := by
  have hR' := hR
  obtain ⟨hdst, hni, hdep, hscan, hinv0⟩ := hR
  have hnl : ∀ d : Int, ∀ b ∈ appendNewline [] pre indent d, isSpace b = true :=
    appendNewline_spaces pre indent hpre hind
  have hnone : ∀ b ∈ ([] : Bytes), isSpace b = true := fun b hb => absurd hb (List.not_mem_nil b)
  have hao_ni : st1.scan.bump.step.afterOpen = false → st1.needIndent = false := by
    intro h
    cases hn : st1.needIndent with
    | false => rfl
    | true => have := hinv0 hn; rw [show st1.scan.bump.step = st1.scan.step from rfl] at h
              rw [h] at this; exact absurd this (by decide)
  have hcl := doStep_class st1.scan.bump c hscan.2.2.1 hscan.2.2.2.2.1 h1 h2 h3
  rcases hcl with ⟨hv, hao⟩ | ⟨hv, hp, hb⟩ | ⟨hc, hv, hs, hb⟩ | ⟨hc, hv, hs, hb⟩
    | ⟨hc, hv, hs, hao⟩ | ⟨hc, hv, hs, hao⟩ | ⟨hc, hv, hsk⟩ | ⟨hc, hv, hsk⟩ | ⟨hv, hsp, hp, hao⟩
  · -- inside a literal
    have hNI := hao_ni hao
    have hsim := doStep_sim_cont st1.scan.bump st2.scan.bump c hscan h3 hv
    refine ⟨[c], emitStep pre indent (st2.withScan (st2.scan.bump.doStep c).1) c scanContinue,
      ?_, ?_, ?_⟩
    · rw [hv, emitStep_continue pre indent (st1.withScan (st1.scan.bump.doStep c).1) c hNI]; rfl
    · intro rest
      rw [List.singleton_append, indentLoop_cons, if_neg (by rw [hsim.1]; decide),
        if_neg (by rw [hsim.1]; decide), hsim.1]
    · rw [hv, emitStep_continue pre indent (st1.withScan (st1.scan.bump.doStep c).1) c hNI,
        emitStep_continue pre indent (st2.withScan (st2.scan.bump.doStep c).1) c
          (hni ▸ hNI : st2.needIndent = false)]
      exact ⟨by simp [IndentState.withScan, hdst], hni, hdep, hsim.2,
        fun h => absurd (hNI ▸ h) (by decide)⟩
  · -- the start of a literal
    obtain ⟨p1, p2, p3, p4, p5, p6⟩ := hp
    by_cases hNI : st1.needIndent = true
    · exact indent_sim_generic pre indent st1 st2 c (appendNewline [] pre indent (st1.depth + 1))
        [] false (st1.depth + 1) hR' h1 h2 h3 (by rw [hv]; decide) (hnl _) hnone
        (fun _ => Or.inl hb) (fun h => absurd rfl h)
        (by
          intro st hn hd
          rw [hv]
          simp [emitStep, hn, hd, hNI, p1, p2, p3, p4, p5, p6, appendNewline_eq st.dst])
        (fun h => absurd h (by decide))
    · have hNI' : st1.needIndent = false := by simpa using hNI
      exact indent_sim_generic pre indent st1 st2 c [] [] false st1.depth hR' h1 h2 h3
        (by rw [hv]; decide) hnone hnone (fun h => absurd rfl h) (fun h => absurd rfl h)
        (by
          intro st hn hd
          rw [hv]
          simp [emitStep, hn, hd, hNI', p1, p2, p3, p4, p5, p6])
        (fun h => absurd h (by decide))
  · -- an opening brace
    have hinv : true = true → (st1.scan.bump.doStep c).1.step.afterOpen = true := by
      intro _; rw [hs]; rfl
    by_cases hNI : st1.needIndent = true
    · exact indent_sim_generic pre indent st1 st2 c (appendNewline [] pre indent (st1.depth + 1))
        [] true (st1.depth + 1) hR' h1 h2 h3 (by rw [hv]; decide) (hnl _) hnone
        (fun _ => Or.inl hb) (fun h => absurd rfl h)
        (by
          intro st hn hd
          rw [hv]
          simp [emitStep, hn, hd, hNI, hc, appendNewline_eq st.dst])
        hinv
    · have hNI' : st1.needIndent = false := by simpa using hNI
      exact indent_sim_generic pre indent st1 st2 c [] [] true st1.depth hR' h1 h2 h3
        (by rw [hv]; decide) hnone hnone (fun h => absurd rfl h) (fun h => absurd rfl h)
        (by
          intro st hn hd
          rw [hv]
          simp [emitStep, hn, hd, hNI', hc])
        hinv
  · -- an opening bracket
    have hinv : true = true → (st1.scan.bump.doStep c).1.step.afterOpen = true := by
      intro _; rw [hs]; rfl
    by_cases hNI : st1.needIndent = true
    · exact indent_sim_generic pre indent st1 st2 c (appendNewline [] pre indent (st1.depth + 1))
        [] true (st1.depth + 1) hR' h1 h2 h3 (by rw [hv]; decide) (hnl _) hnone
        (fun _ => Or.inl hb) (fun h => absurd rfl h)
        (by
          intro st hn hd
          rw [hv]
          simp [emitStep, hn, hd, hNI, hc, appendNewline_eq st.dst])
        hinv
    · have hNI' : st1.needIndent = false := by simpa using hNI
      exact indent_sim_generic pre indent st1 st2 c [] [] true st1.depth hR' h1 h2 h3
        (by rw [hv]; decide) hnone hnone (fun h => absurd rfl h) (fun h => absurd rfl h)
        (by
          intro st hn hd
          rw [hv]
          simp [emitStep, hn, hd, hNI', hc])
        hinv
  · -- a colon
    have hNI := hao_ni hao
    exact indent_sim_generic pre indent st1 st2 c [] [32] false st1.depth hR' h1 h2 h3
      (by rw [hv]; decide) hnone
      (by intro b hb; rw [List.mem_singleton] at hb; rw [hb]; rfl)
      (fun h => absurd rfl h) (fun _ => by rw [hs]; rfl)
      (by
        intro st hn hd
        rw [hv]
        simp [emitStep, hn, hd, hNI, hc])
      (fun h => absurd h (by decide))
  · -- a comma
    have hNI := hao_ni hao
    have h4 : (st1.scan.bump.doStep c).2 ≠ scanContinue := by
      rcases hv with h | h <;> rw [h] <;> decide
    exact indent_sim_generic pre indent st1 st2 c [] (appendNewline [] pre indent st1.depth)
      false st1.depth hR' h1 h2 h3 h4 hnone (hnl _)
      (fun h => absurd rfl h) (fun _ => hs)
      (by
        intro st hn hd
        rcases hv with h | h <;> rw [h] <;>
          simp [emitStep, hn, hd, hNI, hc, appendNewline_eq (st.dst ++ [44])])
      (fun h => absurd h (by decide))
  · -- a closing brace
    by_cases hNI : st1.needIndent = true
    · exact indent_sim_generic pre indent st1 st2 c [] [] false st1.depth hR' h1 h2 h3
        (by rw [hv]; decide) hnone hnone (fun h => absurd rfl h) (fun h => absurd rfl h)
        (by
          intro st hn hd
          rw [hv]
          simp [emitStep, hn, hd, hNI, hc])
        (fun h => absurd h (by decide))
    · have hNI' : st1.needIndent = false := by simpa using hNI
      exact indent_sim_generic pre indent st1 st2 c (appendNewline [] pre indent (st1.depth - 1))
        [] false (st1.depth - 1) hR' h1 h2 h3 (by rw [hv]; decide) (hnl _) hnone
        (fun _ => hsk) (fun h => absurd rfl h)
        (by
          intro st hn hd
          rw [hv]
          simp [emitStep, hn, hd, hNI', hc, appendNewline_eq st.dst])
        (fun h => absurd h (by decide))
  · -- a closing bracket
    by_cases hNI : st1.needIndent = true
    · exact indent_sim_generic pre indent st1 st2 c [] [] false st1.depth hR' h1 h2 h3
        (by rw [hv]; decide) hnone hnone (fun h => absurd rfl h) (fun h => absurd rfl h)
        (by
          intro st hn hd
          rw [hv]
          simp [emitStep, hn, hd, hNI, hc])
        (fun h => absurd h (by decide))
    · have hNI' : st1.needIndent = false := by simpa using hNI
      exact indent_sim_generic pre indent st1 st2 c (appendNewline [] pre indent (st1.depth - 1))
        [] false (st1.depth - 1) hR' h1 h2 h3 (by rw [hv]; decide) (hnl _) hnone
        (fun _ => hsk) (fun h => absurd rfl h)
        (by
          intro st hn hd
          rw [hv]
          simp [emitStep, hn, hd, hNI', hc, appendNewline_eq st.dst])
        (fun h => absurd h (by decide))
  · -- space behind the top-level value
    have hNI := hao_ni hao
    obtain ⟨p1, p2, p3, p4, p5, p6⟩ := hp
    exact indent_sim_generic pre indent st1 st2 c [] [] false st1.depth hR' h1 h2 h3
      (by rw [hv]; decide) hnone hnone (fun h => absurd rfl h) (fun h => absurd rfl h)
      (by
        intro st hn hd
        rw [hv]
        simp [emitStep, hn, hd, hNI, p1, p2, p3, p4, p5, p6])
      (fun h => absurd h (by decide))

/-! ### The whole loop -/

theorem emitStep_scan (pre indent : Bytes) (st : IndentState) (c : Nat) (v : ScanCode) :
    (emitStep pre indent st c v).scan = st.scan := by
  simp only [emitStep, apply_ite IndentState.scan, ite_self]

theorem indentLoop_nil (pre indent : Bytes) (st : IndentState) :
    indentLoop pre indent st [] = st := by
  rw [indentLoop]

theorem indentLoop_err_none (pre indent : Bytes) :
    ∀ (src : Bytes) (st : IndentState),
      (indentLoop pre indent st src).scan.err = none → st.scan.err = none := by
  intro src
  induction src with
  | nil => intro st h; rw [indentLoop_nil] at h; exact h
  | cons c src ih =>
    intro st h
    rw [indentLoop_cons] at h
    have key : (st.scan.bump.doStep c).1.err = none → st.scan.err = none :=
      fun h => doStep_err_none st.scan.bump c h
    by_cases h1 : (st.scan.bump.doStep c).2 = scanSkipSpace
    · rw [if_pos h1] at h
      exact key (ih _ h)
    rw [if_neg h1] at h
    by_cases h2 : (st.scan.bump.doStep c).2 = scanError
    · rw [if_pos h2] at h
      exact key h
    rw [if_neg h2] at h
    have := ih _ h
    rw [emitStep_scan] at this
    exact key this

/-- A second run of the indenter over what a first run has written follows the
first run: it writes the same bytes and ends in a related state. -/
theorem indentLoop_sim (pre indent : Bytes) (hpre : ∀ b ∈ pre, isSpace b = true)
    (hind : ∀ b ∈ indent, isSpace b = true) :
    ∀ (src : Bytes) (st1 st2 : IndentState), IndentRel st1 st2 →
      (indentLoop pre indent st1 src).scan.err = none →
      ∃ (e : Bytes) (st2' : IndentState),
        (indentLoop pre indent st1 src).dst = st1.dst ++ e
          ∧ (∀ rest, indentLoop pre indent st2 (e ++ rest) = indentLoop pre indent st2' rest)
          ∧ IndentRel (indentLoop pre indent st1 src) st2' := by
  intro src
  induction src with
  | nil =>
    intro st1 st2 hR _
    refine ⟨[], st2, ?_, fun _ => rfl, ?_⟩
    · rw [indentLoop_nil]; simp
    · rw [indentLoop_nil]; exact hR
  | cons c src ih =>
    intro st1 st2 hR herr
    rw [indentLoop_cons] at herr ⊢
    obtain ⟨hdst, hni, hdep, hscan, hinv0⟩ := hR
    by_cases h1 : (st1.scan.bump.doStep c).2 = scanSkipSpace
    · rw [if_pos h1] at herr ⊢
      have hsk := doStep_skip_rel st1.scan.bump st2.scan c hscan.bumpFirst h1
      have hR2 : IndentRel (st1.withScan (st1.scan.bump.doStep c).1) st2 :=
        ⟨hdst, hni, hdep, hsk.1, fun h => by
          have := hinv0 h
          show (st1.scan.bump.doStep c).1.step.afterOpen = true
          rw [hsk.2]; exact this⟩
      exact ih _ st2 hR2 herr
    rw [if_neg h1] at herr ⊢
    by_cases h2 : (st1.scan.bump.doStep c).2 = scanError
    · rw [if_pos h2] at herr
      exact absurd herr (doStep_error_err st1.scan.bump c hscan.2.2.2.2.1 h2)
    rw [if_neg h2] at herr ⊢
    have h3 : (st1.scan.bump.doStep c).1.err = none := by
      have := indentLoop_err_none pre indent src _ herr
      rw [emitStep_scan] at this
      exact this
    obtain ⟨e1, st2a, hd1, hrun1, hR1⟩ :=
      indent_step_sim pre indent hpre hind st1 st2 c ⟨hdst, hni, hdep, hscan, hinv0⟩ h1 h2 h3
    obtain ⟨e2, st2', hd2, hrun2, hR2⟩ := ih _ st2a hR1 herr
    refine ⟨e1 ++ e2, st2', ?_, ?_, hR2⟩
    · rw [hd2, hd1, List.append_assoc]
    · intro rest
      rw [List.append_assoc, hrun1, hrun2]

/-! ### The indenter and the validity check scan alike -/

theorem checkValidLoop_nil (s : scanner) : checkValidLoop s [] = (s, true) := by
  rw [checkValidLoop]

theorem checkValidLoop_cons (s : scanner) (c : Nat) (rest : Bytes) :
    checkValidLoop s (c :: rest) =
      if (s.bump.doStep c).2 = scanError then ((s.bump.doStep c).1, false)
      else checkValidLoop (s.bump.doStep c).1 rest := by
  rw [checkValidLoop]
  rfl

/-- The scanner of the indenter goes through the states of the validity check. -/
theorem indentLoop_scan (pre indent : Bytes) :
    ∀ (src : Bytes) (st : IndentState),
      (indentLoop pre indent st src).scan = (checkValidLoop st.scan src).1 := by
  intro src
  induction src with
  | nil => intro st; rw [indentLoop_nil, checkValidLoop_nil]
  | cons c src ih =>
    intro st
    rw [indentLoop_cons, checkValidLoop_cons]
    by_cases h1 : (st.scan.bump.doStep c).2 = scanSkipSpace
    · rw [if_pos h1, if_neg (by rw [h1]; decide), ih]; rfl
    rw [if_neg h1]
    by_cases h2 : (st.scan.bump.doStep c).2 = scanError
    · rw [if_pos h2, if_pos h2]; rfl
    rw [if_neg h2, if_neg h2, ih, emitStep_scan]; rfl

/-- When the validity check stops at a byte, an error has been recorded. -/
theorem checkValidLoop_stop :
    ∀ (src : Bytes) (s : scanner), (s.step = StepFn.error → s.err ≠ none) →
      (checkValidLoop s src).2 = false → (checkValidLoop s src).1.err ≠ none := by
  intro src
  induction src with
  | nil => intro s _ h; rw [checkValidLoop_nil] at h; simp at h
  | cons c src ih =>
    intro s hco h
    rw [checkValidLoop_cons] at h ⊢
    have hstep : (s.bump.doStep c).2 = scanError → (s.bump.doStep c).1.err ≠ none := by
      intro hv
      by_cases hne : s.step = StepFn.error
      · have : s.bump.doStep c = (s.bump, scanError) := by
          simp only [scanner.doStep, show s.bump.step = StepFn.error from hne, stateError]
        rw [this]
        exact hco hne
      · exact doStep_error_err s.bump c hne hv
    by_cases h2 : (s.bump.doStep c).2 = scanError
    · rw [if_pos h2]
      exact hstep h2
    · rw [if_neg h2] at h ⊢
      refine ih _ ?_ h
      intro hs
      by_cases hne : s.step = StepFn.error
      · have : s.bump.doStep c = (s.bump, scanError) := by
          simp only [scanner.doStep, show s.bump.step = StepFn.error from hne, stateError]
        rw [this] at h2
        exact absurd rfl h2
      · intro he
        exact doStep_step_ne s.bump c hne he hs

theorem eof_error_err (s : scanner) (h : s.eof.2 = scanError) : s.eof.1.err ≠ none := by
  unfold scanner.eof at h ⊢
  by_cases h1 : s.err.isSome = true
  · rw [if_pos h1]
    intro he
    rw [he] at h1
    exact absurd h1 (by decide)
  rw [if_neg h1] at h ⊢
  by_cases h2 : s.endTop = true
  · rw [if_pos h2] at h; simp at h
  rw [if_neg h2] at h ⊢
  dsimp only at h ⊢
  by_cases h3 : (s.doStep 32).1.endTop = true
  · rw [if_pos h3] at h; simp at h
  rw [if_neg h3]
  by_cases h4 : (s.doStep 32).1.err.isNone = true
  · rw [if_pos h4]; simp
  · rw [if_neg h4]
    intro he
    rw [he] at h4
    exact h4 rfl

theorem eof_ok_err (s : scanner) (h : s.eof.2 ≠ scanError) : s.err = none := by
  unfold scanner.eof at h
  by_cases h1 : s.err.isSome = true
  · rw [if_pos h1] at h; exact absurd rfl h
  · cases hs : s.err with
    | none => rfl
    | some e => rw [hs] at h1; exact absurd rfl h1

/-- The starting state of `appendIndent` on an empty destination. -/
theorem indentRel_start :
    IndentRel { dst := [], scan := newScanner, needIndent := false, depth := 0 }
      { dst := [], scan := newScanner, needIndent := false, depth := 0 } :=
  ⟨rfl, rfl, rfl, ⟨rfl, rfl, rfl, rfl, by decide, Or.inl rfl⟩, fun h => absurd h (by decide)⟩

/-- What `appendIndent` returns on an empty destination, by the outcome of the
validity check. -/
theorem appendIndent_eq (src pre indent : Bytes) :
    appendIndent [] src pre indent =
      if Valid src = true then
        ((indentLoop pre indent
            { dst := [], scan := newScanner, needIndent := false, depth := 0 } src).dst, none)
      else ([], checkValid src) := by
  have hscan := indentLoop_scan pre indent src
    { dst := [], scan := newScanner, needIndent := false, depth := 0 }
  simp only [appendIndent, Valid, checkValid, List.length_nil, List.take_zero]
  rw [hscan]
  by_cases hb : (checkValidLoop newScanner src).2 = false
  · have herr := checkValidLoop_stop src newScanner (fun h => absurd h (by decide)) hb
    have hsome : (checkValidLoop newScanner src).1.err.isSome = true := by
      cases h : (checkValidLoop newScanner src).1.err with
      | none => exact absurd h herr
      | some e => rfl
    have heof : (checkValidLoop newScanner src).1.eof
        = ((checkValidLoop newScanner src).1, scanError) := by
      unfold scanner.eof
      rw [if_pos hsome]
    rw [heof]
    simp only [hb, if_true]
    have hnn : ((checkValidLoop newScanner src).1.err.isNone = true) = False := by
      cases h : (checkValidLoop newScanner src).1.err with
      | none => exact absurd h herr
      | some e => simp
    simp [hnn]
  · simp only [hb, if_false]
    by_cases he : (checkValidLoop newScanner src).1.eof.2 = scanError
    · have herr := eof_error_err _ he
      have hnn : ((checkValidLoop newScanner src).1.eof.1.err.isNone = true) = False := by
        cases h : (checkValidLoop newScanner src).1.eof.1.err with
        | none => exact absurd h herr
        | some e => simp
      simp [he, hnn]
    · simp [he]

/-- What `json.Valid` says, in terms of the loop and the end of the input. -/
theorem valid_iff (src : Bytes) :
    Valid src = true ↔
      (checkValidLoop newScanner src).2 = true
        ∧ (checkValidLoop newScanner src).1.eof.2 ≠ scanError := by
  simp only [Valid, checkValid]
  by_cases hb : (checkValidLoop newScanner src).2 = false
  · have herr := checkValidLoop_stop src newScanner (fun h => absurd h (by decide)) hb
    simp only [hb, if_true]
    constructor
    · intro h
      rw [Option.isNone_iff_eq_none] at h
      exact absurd h herr
    · intro h
      exact absurd h.1 (by simp)
  · have hb' : (checkValidLoop newScanner src).2 = true := by simpa using hb
    simp only [hb, if_false]
    by_cases he : (checkValidLoop newScanner src).1.eof.2 = scanError
    · have herr := eof_error_err _ he
      simp only [he, if_true]
      constructor
      · intro h
        rw [Option.isNone_iff_eq_none] at h
        exact absurd h herr
      · intro h
        exact absurd rfl h.2
    · simp [he, hb']

theorem formatJSON_eq (d : Bytes) :
    formatJSON d =
      { result := (appendIndent [] d [] [32]).1, printed := (appendIndent [] d [] [32]).2 } := by
  simp [formatJSON, Indent]

/-- C6: for every valid JSON document `d` (valid as `json.Valid` decides it),
formatting the output of `formatJSON` gives that output again. -/
theorem formatJSON_idempotent (d : Bytes) (h : Valid d = true) :
    formatJSON (formatJSON d).result = formatJSON d := by
  have hv := (valid_iff d).1 h
  have hscan := indentLoop_scan [] [32] d
    { dst := [], scan := newScanner, needIndent := false, depth := 0 }
  have hfirst := appendIndent_eq d [] [32]
  rw [if_pos h] at hfirst
  have herr : (indentLoop [] [32]
      { dst := [], scan := newScanner, needIndent := false, depth := 0 } d).scan.err = none := by
    rw [hscan]
    exact eof_ok_err _ hv.2
  obtain ⟨e, st2, hdst, hrun, hrel⟩ :=
    indentLoop_sim [] [32] (fun b hb => absurd hb (List.not_mem_nil b))
      (fun b hb => by rw [List.mem_singleton] at hb; rw [hb]; rfl) d _ _ indentRel_start herr
  rw [List.nil_append] at hdst
  have hrun2 := hrun []
  rw [List.append_nil, indentLoop_nil] at hrun2
  have heof : st2.scan.eof.2 ≠ scanError := by
    refine (eof_sim _ _ hrel.2.2.2.1 ?_).1
    rw [hscan]
    exact hv.2
  have hsecond : appendIndent [] e [] [32] = (e, none) := by
    simp only [appendIndent, List.length_nil, List.take_zero]
    rw [hrun2, if_neg heof, ← hrel.1, hdst]
  rw [formatJSON_eq d, hfirst, hdst]
  simp only
  rw [formatJSON_eq e, hsecond]

theorem formatJSON_idempotent_witness :
    formatJSON (formatJSON samBody).result = formatJSON samBody :=
  formatJSON_idempotent samBody (by decide)

/-- C7: for every byte sequence that is not valid JSON, `formatJSON` returns the
empty string; the error of the scan is handed to `fmt.Println` and nothing is
propagated. -/
theorem formatJSON_invalid (d : Bytes) (h : Valid d = false) :
    (formatJSON d).result = [] ∧ (formatJSON d).printed = checkValid d
      ∧ (formatJSON d).printed ≠ none := by
  have hfirst := appendIndent_eq d [] [32]
  rw [if_neg (by rw [h]; decide)] at hfirst
  rw [formatJSON_eq d, hfirst]
  refine ⟨rfl, rfl, ?_⟩
  intro hn
  simp only [Valid] at h
  simp only at hn
  rw [hn] at h
  exact absurd h (by decide)

theorem formatJSON_invalid_witness :
    (formatJSON (bytesOf "\x7b\"name\":")).result = []
      ∧ (formatJSON (bytesOf "\x7b\"name\":")).printed = checkValid (bytesOf "\x7b\"name\":")
      ∧ (formatJSON (bytesOf "\x7b\"name\":")).printed ≠ none :=
  formatJSON_invalid (bytesOf "\x7b\"name\":") (by decide)

set_option maxRecDepth 100000 in
/-- C8, as stated, fails: for the sample input the output of `formatJSON` has
five lines, not four. -/
theorem formatJSON_sam_not_four_lines :
    ¬ (splitLines (formatJSON samBody).result).length = 4 := by
  decide

set_option maxRecDepth 100000 in
/-- C8, amended: for the sample input `formatJSON` produces a 5-line document:
the opening brace, one line per member, each indented by exactly one space,
with no comma behind the last member, and the closing brace. -/
theorem formatJSON_sam :
    splitLines (formatJSON samBody).result
        = [bytesOf "\x7b", bytesOf " \"name\": \"sam\",", bytesOf " \"gender\": \"male\",",
            bytesOf " \"probability\": 0.97", bytesOf "\x7d"]
      ∧ (formatJSON samBody).printed = none := by
  decide

end HttpSample
